import Mathlib

/-!
# MirSurfaceItem: surface attachment, orientation staging and touch-sequence repair

A shallow embedding of `src/modules/Unity/Application/mirsurfaceitem.cpp`.

* The item (`MirSurfaceItem`) is a record of the member variables the code reads and writes.
* Surfaces (`MirSurfaceInterface` objects) live outside the item; they are addressed through a
  `HandleId` (the pointer) and kept in `World.surfaces`.
* Every call the item makes on a surface, every signal it emits and every (dis)connection is
  appended to `World.trace`, in program order.
* `Q_ASSERT` failures and null dereferences make an operation return `none`.
-/

namespace qtmir

/-! ## Values of the Mir / Qt enumerations used by the item -/

/-- Surface kinds (`Mir::Type`). -/
inductive MirType where
  | UnknownType
  | NormalType
  | UtilityType
  | DialogType
  | OverlayType
  | FreeStyleType
  | PopoverType
  | InputMethodType
  deriving DecidableEq, Repr

/-- Surface states (`Mir::State`). -/
inductive MirState where
  | UnknownState
  | RestoredState
  | MinimizedState
  | MaximizedState
  | VertMaximizedState
  | FullscreenState
  deriving DecidableEq, Repr

/-- Orientation angles (`Mir::OrientationAngle`). -/
inductive OrientationAngle where
  | Angle0
  | Angle90
  | Angle180
  | Angle270
  deriving DecidableEq, Repr

/-- State of one touch point (`Qt::TouchPointState`). -/
inductive TouchPointState where
  | TouchPointPressed
  | TouchPointMoved
  | TouchPointStationary
  | TouchPointReleased
  deriving DecidableEq, Repr

/-- Flag value of a touch point state inside a `Qt::TouchPointStates` mask. -/
def TouchPointState.toFlag : TouchPointState → Nat
  | .TouchPointPressed => 0x01
  | .TouchPointMoved => 0x02
  | .TouchPointStationary => 0x04
  | .TouchPointReleased => 0x08

/-- Event type `QEvent::TouchBegin`. -/
def TouchBegin : Int := 194

/-- Event type `QEvent::TouchUpdate`. -/
def TouchUpdate : Int := 195

/-- Event type `QEvent::TouchEnd`. -/
def TouchEnd : Int := 196

/-- One touch point (`QTouchEvent::TouchPoint`): its id, its position as the integer point
`pos().toPoint()` the code inspects, and its state. -/
structure TouchPoint where
  id : Int
  x : Int
  y : Int
  state : TouchPointState
  deriving DecidableEq, Repr

/-- The method `TouchPoint::setState`. -/
def TouchPoint.setState (p : TouchPoint) (s : TouchPointState) : TouchPoint :=
  { p with state := s }

/-- The record `MirSurfaceItem::TouchEvent` kept as the last delivered touch batch. -/
structure TouchEvent where
  type : Int
  timestamp : Nat
  modifiers : Nat
  touchPoints : List TouchPoint
  touchPointStates : Nat
  deriving DecidableEq, Repr

/-- The keyboard rectangle published by the `UbuntuKeyboardInfo` singleton (a collaborator
outside this file, taken as a parameter). -/
structure UbuntuKeyboardInfo where
  x : Int
  y : Int
  width : Int
  height : Int
  deriving DecidableEq, Repr

/-! ## Surfaces, effects and the world -/

/-- Pointer to a surface object. -/
abbrev HandleId := Nat

/-- Modelled from the spec: the observable state of a surface handle (`MirSurfaceInterface`,
declared outside this file): kind, name, application id, live flag, state, orientation, size,
the view count and the focus flag. -/
structure MirSurface where
  type : MirType
  name : String
  appId : String
  live : Bool
  state : MirState
  orientationAngle : OrientationAngle
  width : Int
  height : Int
  viewCount : Int
  focused : Bool
  deriving DecidableEq, Repr

/-- The methods of a surface handle that the item calls. -/
inductive SurfaceCall where
  | setOrientationAngle (angle : OrientationAngle)
  | setFocus (focus : Bool)
  | incrementViewCount
  | decrementViewCount
  | resize (width height : Int)
  | setState (state : MirState)
  | touchEvent (mods : Nat) (touchPoints : List TouchPoint) (touchPointStates : Nat)
      (timestamp : Nat)
  | mousePressEvent
  | mouseMoveEvent
  | mouseReleaseEvent
  | hoverEnterEvent
  | hoverLeaveEvent
  | hoverMoveEvent
  | keyPressEvent
  | keyReleaseEvent
  deriving DecidableEq, Repr

/-- Modelled from the spec: what a call does to the handle it is made on. The orientation setter
stores the angle, the view count goes up and down by one, `setFocus` stores the flag; `resize`,
`setState` and input delivery are requests to the compositor and leave the handle as it is. -/
def MirSurface.apply (s : MirSurface) : SurfaceCall → MirSurface
  | .setOrientationAngle a => { s with orientationAngle := a }
  | .setFocus b => { s with focused := b }
  | .incrementViewCount => { s with viewCount := s.viewCount + 1 }
  | .decrementViewCount => { s with viewCount := s.viewCount - 1 }
  | _ => s

/-- Modelled from the spec: a handle is being displayed while some view is attached to it. -/
def MirSurface.isBeingDisplayed (s : MirSurface) : Bool :=
  decide (0 < s.viewCount)

/-- Signals of a surface the item connects to. -/
inductive SurfaceSignal where
  | framesPosted
  | stateChanged
  | liveChanged
  | sizeChanged
  | orientationAngleChanged
  deriving DecidableEq, Repr

/-- Change notifications emitted by the item. -/
inductive Signal where
  | typeChanged (t : MirType)
  | liveChanged (live : Bool)
  | surfaceStateChanged (s : MirState)
  | orientationAngleChanged (a : OrientationAngle)
  | surfaceChanged (h : Option HandleId)
  | consumesInputChanged (v : Bool)
  | surfaceWidthChanged (v : Int)
  | surfaceHeightChanged (v : Int)
  deriving DecidableEq, Repr

/-- Everything the item does to its surroundings. -/
inductive Effect where
  | call (h : HandleId) (c : SurfaceCall)
  | emit (s : Signal)
  | connect (h : HandleId) (s : SurfaceSignal)
  | connectFrameSwapped (h : HandleId)
  | disconnect (h : HandleId)
  | disconnectWindow (h : HandleId)
  | update
  deriving DecidableEq, Repr

/-- The texture provider: `true` while it holds a texture. -/
structure MirTextureProvider where
  hasTexture : Bool
  deriving DecidableEq, Repr

/-- Member variables of `MirSurfaceItem`, with the toolkit state the code reads
(`hasActiveFocus()`, `window()`) and writes (`setImplicitSize`). -/
structure MirSurfaceItem where
  m_surface : Option HandleId
  m_textureProvider : Option MirTextureProvider
  m_lastTouchEvent : Option TouchEvent
  m_surfaceWidth : Int
  m_surfaceHeight : Int
  m_orientationAngle : Option OrientationAngle
  m_consumesInput : Bool
  hasActiveFocus : Bool
  hasWindow : Bool
  implicitWidth : Int
  implicitHeight : Int
  deriving DecidableEq, Repr

/-- The item, the surfaces around it and the trace of effects so far. -/
structure World where
  item : MirSurfaceItem
  surfaces : HandleId → MirSurface
  trace : List Effect

/-- The constructor `MirSurfaceItem::MirSurfaceItem`. -/
def MirSurfaceItem.new : MirSurfaceItem :=
  { m_surface := none
    m_textureProvider := none
    m_lastTouchEvent := none
    m_surfaceWidth := 0
    m_surfaceHeight := 0
    m_orientationAngle := none
    m_consumesInput := false
    hasActiveFocus := false
    hasWindow := false
    implicitWidth := 0
    implicitHeight := 0 }

/-- A freshly constructed item among the given surfaces. -/
def World.fresh (surfaces : HandleId → MirSurface) : World :=
  { item := MirSurfaceItem.new, surfaces := surfaces, trace := [] }

/-- Call a method on a surface: the call is traced and the handle updated. -/
def World.call (w : World) (h : HandleId) (c : SurfaceCall) : World :=
  { w with
    surfaces := Function.update w.surfaces h ((w.surfaces h).apply c)
    trace := w.trace ++ [Effect.call h c] }

/-- Append one effect that leaves every handle as it is. -/
def World.log (w : World) (e : Effect) : World :=
  { w with trace := w.trace ++ [e] }

/-- Emit a change notification of the item. -/
def World.emit (w : World) (s : Signal) : World :=
  w.log (Effect.emit s)

/-- Replace the item. -/
def World.setItem (w : World) (i : MirSurfaceItem) : World :=
  { w with item := i }

/-- The effects appended to the trace between two worlds. -/
def effectsSince (before after : World) : List Effect :=
  after.trace.drop before.trace.length

/-! ## Read accessors -/

/-- The accessor `MirSurfaceItem::type`. -/
def type (w : World) : MirType :=
  match w.item.m_surface with
  | some h => (w.surfaces h).type
  | none => MirType.UnknownType

/-- The accessor `MirSurfaceItem::orientationAngle`; `none` when its assertion fails. -/
def orientationAngle (w : World) : Option OrientationAngle :=
  match w.item.m_orientationAngle with
  | some a => if w.item.m_surface.isSome then none else some a
  | none =>
    match w.item.m_surface with
    | some h => some (w.surfaces h).orientationAngle
    | none => some OrientationAngle.Angle0

/-- The accessor `MirSurfaceItem::name`. -/
def name (w : World) : String :=
  match w.item.m_surface with
  | some h => (w.surfaces h).name
  | none => ""

/-- The accessor `MirSurfaceItem::live`. -/
def live (w : World) : Bool :=
  match w.item.m_surface with
  | some h => (w.surfaces h).live
  | none => false

/-- The accessor `MirSurfaceItem::appId`. -/
def appId (w : World) : String :=
  match w.item.m_surface with
  | some h => (w.surfaces h).appId
  | none => "-"

/-- The accessor `MirSurfaceItem::surfaceState`. -/
def surfaceState (w : World) : MirState :=
  match w.item.m_surface with
  | some h => (w.surfaces h).state
  | none => MirState.UnknownState

/-- The accessor `MirSurfaceItem::consumesInput`. -/
def consumesInput (w : World) : Bool :=
  w.item.m_consumesInput

/-- The accessor `MirSurfaceItem::surface`. -/
def surface (w : World) : Option HandleId :=
  w.item.m_surface

/-! ## Orientation, state, size and focus -/

/-- The method `MirSurfaceItem::setOrientationAngle`; `none` when its assertion fails. -/
def setOrientationAngle (w : World) (angle : OrientationAngle) : Option World :=
  match w.item.m_surface with
  | some h =>
    if w.item.m_orientationAngle.isSome then none
    else some (w.call h (SurfaceCall.setOrientationAngle angle))
  | none =>
    match w.item.m_orientationAngle with
    | none =>
      some ((w.setItem { w.item with m_orientationAngle := some angle }).emit
        (Signal.orientationAngleChanged angle))
    | some old =>
      if old ≠ angle then
        some ((w.setItem { w.item with m_orientationAngle := some angle }).emit
          (Signal.orientationAngleChanged angle))
      else some w

/-- The method `MirSurfaceItem::setSurfaceState`. -/
def setSurfaceState (w : World) (state : MirState) : World :=
  match w.item.m_surface with
  | some h => w.call h (SurfaceCall.setState state)
  | none => w

/-- The method `MirSurfaceItem::updateMirSurfaceSize`. -/
def updateMirSurfaceSize (w : World) : World :=
  match w.item.m_surface with
  | none => w
  | some h =>
    if !(w.surfaces h).live || (w.item.m_surfaceWidth ≤ 0 && w.item.m_surfaceHeight ≤ 0) then w
    else
      let width := if w.item.m_surfaceWidth > 0 then w.item.m_surfaceWidth
        else (w.surfaces h).width
      let height := if w.item.m_surfaceHeight > 0 then w.item.m_surfaceHeight
        else (w.surfaces h).height
      w.call h (SurfaceCall.resize width height)

/-- The slot `MirSurfaceItem::updateMirSurfaceFocus`. -/
def updateMirSurfaceFocus (w : World) (focused : Bool) : World :=
  match w.item.m_surface with
  | some h =>
    if w.item.m_consumesInput && (w.surfaces h).live then w.call h (SurfaceCall.setFocus focused)
    else w
  | none => w

/-- The method `MirSurfaceItem::setConsumesInput`; the accepted mouse buttons and the hover
flag it sets on the toolkit side are left out. -/
def setConsumesInput (w : World) (value : Bool) : World :=
  if w.item.m_consumesInput = value then w
  else (w.setItem { w.item with m_consumesInput := value }).emit
    (Signal.consumesInputChanged value)

/-! ## Attaching a surface -/

/-- In `setSurface`: the old surface loses focus when the item has active focus, consumes
input and the surface is live. -/
def clearFocusOfCurrent (w : World) (old : HandleId) : World :=
  if w.item.hasActiveFocus && w.item.m_consumesInput && (w.surfaces old).live then
    w.call old (SurfaceCall.setFocus false)
  else w

/-- In `setSurface`: the window is disconnected from the old surface when no view displays
it any more and the item has a window. -/
def disconnectWindowIfHidden (w : World) (old : HandleId) : World :=
  if !(w.surfaces old).isBeingDisplayed && w.item.hasWindow then
    w.log (Effect.disconnectWindow old)
  else w

/-- In `setSurface`: `m_textureProvider->releaseTexture()` when there is a provider. -/
def releaseTexture (w : World) : World :=
  match w.item.m_textureProvider with
  | some _ => w.setItem { w.item with m_textureProvider := some { hasTexture := false } }
  | none => w

/-- First half of `MirSurfaceItem::setSurface`: letting go of the attached surface. -/
def detachCurrent (w : World) : World :=
  match w.item.m_surface with
  | none => w
  | some old =>
    releaseTexture (disconnectWindowIfHidden
      ((clearFocusOfCurrent (w.log (Effect.disconnect old)) old).call old
        SurfaceCall.decrementViewCount) old)

/-- In `setSurface`: the five connections made to a newly attached surface. -/
def connectSurface (w : World) (h : HandleId) : World :=
  ((((w.log (Effect.connect h SurfaceSignal.framesPosted)).log
    (Effect.connect h SurfaceSignal.stateChanged)).log
    (Effect.connect h SurfaceSignal.liveChanged)).log
    (Effect.connect h SurfaceSignal.sizeChanged)).log
    (Effect.connectFrameSwapped h)

/-- In `setSurface`: the three notifications emitted for a newly attached surface. -/
def announceSurface (w : World) (h : HandleId) : World :=
  ((w.emit (Signal.typeChanged (w.surfaces h).type)).emit
    (Signal.liveChanged true)).emit
    (Signal.surfaceStateChanged (w.surfaces h).state)

/-- In `setSurface`: `setImplicitSize` from the size of the surface. -/
def seedImplicitSize (w : World) (h : HandleId) : World :=
  w.setItem { w.item with
    implicitWidth := (w.surfaces h).width
    implicitHeight := (w.surfaces h).height }

/-- In `setSurface`: a staged orientation is handed to the surface and cleared; without one
the orientation of the surface is announced. -/
def applyOrientation (w : World) (h : HandleId) : World :=
  match w.item.m_orientationAngle with
  | some a =>
    ((w.call h (SurfaceCall.setOrientationAngle a)).log
      (Effect.connect h SurfaceSignal.orientationAngleChanged)).setItem
      { w.item with m_orientationAngle := none }
  | none =>
    (w.log (Effect.connect h SurfaceSignal.orientationAngleChanged)).emit
      (Signal.orientationAngleChanged (w.surfaces h).orientationAngle)

/-- In `setSurface`: the focus state is pushed to the new surface when the item consumes
input. -/
def pushFocus (w : World) (h : HandleId) : World :=
  if w.item.m_consumesInput then w.call h (SurfaceCall.setFocus w.item.hasActiveFocus)
  else w

/-- Second half of `MirSurfaceItem::setSurface`: adopting the new surface. -/
def attachNew (w : World) (h : HandleId) : World :=
  pushFocus (applyOrientation (seedImplicitSize (updateMirSurfaceSize
    (announceSurface (connectSurface (w.call h SurfaceCall.incrementViewCount) h) h)) h) h) h

/-- The method `MirSurfaceItem::setSurface`. -/
def setSurface (w : World) (surface : Option HandleId) : World :=
  if surface = w.item.m_surface then w
  else
    let w1 := detachCurrent w
    let w2 := w1.setItem { w1.item with m_surface := surface }
    let w3 :=
      match w2.item.m_surface with
      | some h => attachNew w2 h
      | none => w2
    (w3.log Effect.update).emit (Signal.surfaceChanged w3.item.m_surface)

/-! ## Pointer, hover and key entry points -/

/-- A mouse event: the local position the keyboard gate inspects. -/
structure MouseEvent where
  x : Int
  y : Int
  deriving DecidableEq, Repr

/-- The test `MirSurfaceItem::isMouseInsideUbuntuKeyboard`. -/
def isMouseInsideUbuntuKeyboard (kb : UbuntuKeyboardInfo) (event : MouseEvent) : Bool :=
  decide (event.x ≥ kb.x) && decide (event.x ≤ kb.x + kb.width)
    && decide (event.y ≥ kb.y) && decide (event.y ≤ kb.y + kb.height)

/-- Shared shape of the entry points that pass an event on when the item consumes input and
its surface is live, and ignore it otherwise. The flag returned is `true` when the item
called `event->ignore()`. -/
def forwardInput (w : World) (c : SurfaceCall) : World × Bool :=
  match w.item.m_surface with
  | some h =>
    if w.item.m_consumesInput && (w.surfaces h).live then (w.call h c, false) else (w, true)
  | none => (w, true)

/-- The handler `MirSurfaceItem::mousePressEvent`. -/
def mousePressEvent (kb : UbuntuKeyboardInfo) (w : World) (event : MouseEvent) : World × Bool :=
  match w.item.m_surface with
  | some h =>
    if w.item.m_consumesInput && (w.surfaces h).live then
      if type w = MirType.InputMethodType then
        if isMouseInsideUbuntuKeyboard kb event then (w.call h SurfaceCall.mousePressEvent, false)
        else (w, true)
      else (w.call h SurfaceCall.mousePressEvent, false)
    else (w, true)
  | none => (w, true)

/-- The handler `MirSurfaceItem::mouseMoveEvent`. -/
def mouseMoveEvent (w : World) : World × Bool :=
  forwardInput w SurfaceCall.mouseMoveEvent

/-- The handler `MirSurfaceItem::mouseReleaseEvent`. -/
def mouseReleaseEvent (w : World) : World × Bool :=
  forwardInput w SurfaceCall.mouseReleaseEvent

/-- The handler `MirSurfaceItem::hoverEnterEvent`. -/
def hoverEnterEvent (w : World) : World × Bool :=
  forwardInput w SurfaceCall.hoverEnterEvent

/-- The handler `MirSurfaceItem::hoverLeaveEvent`. -/
def hoverLeaveEvent (w : World) : World × Bool :=
  forwardInput w SurfaceCall.hoverLeaveEvent

/-- The handler `MirSurfaceItem::hoverMoveEvent`. -/
def hoverMoveEvent (w : World) : World × Bool :=
  forwardInput w SurfaceCall.hoverMoveEvent

/-- The handler `MirSurfaceItem::keyPressEvent`. -/
def keyPressEvent (w : World) : World × Bool :=
  forwardInput w SurfaceCall.keyPressEvent

/-- The handler `MirSurfaceItem::keyReleaseEvent`. -/
def keyReleaseEvent (w : World) : World × Bool :=
  forwardInput w SurfaceCall.keyReleaseEvent

/-! ## Touch delivery and repair -/

/-- The arguments of one `processTouchEvent` call. -/
structure TouchBatch where
  eventType : Int
  timestamp : Nat
  mods : Nat
  touchPoints : List TouchPoint
  touchPointStates : Nat
  deriving DecidableEq, Repr

/-- The aggregate of the states of a list of points, accumulated from `acc` as the loop of
`updateTouchPointStatesAndType` does. -/
def orStates (acc : Nat) : List TouchPoint → Nat
  | [] => acc
  | p :: ps => orStates (acc ||| p.state.toFlag) ps

/-- The event type that goes with an aggregate of touch point states. -/
def typeOfStates (touchPointStates : Nat) : Int :=
  if touchPointStates = TouchPointState.TouchPointReleased.toFlag then TouchEnd
  else if touchPointStates = TouchPointState.TouchPointPressed.toFlag then TouchBegin
  else TouchUpdate

/-- The method `MirSurfaceItem::TouchEvent::updateTouchPointStatesAndType`. -/
def TouchEvent.updateTouchPointStatesAndType (e : TouchEvent) : TouchEvent :=
  let touchPointStates := orStates 0 e.touchPoints
  { e with touchPointStates := touchPointStates, type := typeOfStates touchPointStates }

/-- First loop of `endCurrentTouchSequence`: walk the list by index, removing the point at `i`
when it is released and stepping to `i + 1` otherwise. -/
def removeReleased (touchPoints : List TouchPoint) (i : Nat) : List TouchPoint :=
  if h : i < touchPoints.length then
    if (touchPoints.get ⟨i, h⟩).state = TouchPointState.TouchPointReleased then
      removeReleased (touchPoints.eraseIdx i) i
    else removeReleased touchPoints (i + 1)
  else touchPoints
termination_by touchPoints.length - i
decreasing_by
  all_goals simp_wf
  · rw [List.length_eraseIdx]
    simp only [h, if_true]
    omega
  · omega

/-- Second loop of `endCurrentTouchSequence`: release the first remaining point, recompute the
aggregate, deliver, record, drop the point; until no point remains. The list argument is
`touchEvent.touchPoints`. -/
def releaseOneByOne (touchEvent : TouchEvent) : List TouchPoint → World → Option World
  | [], w => some w
  | p :: rest, w =>
    match w.item.m_surface with
    | none => none
    | some h =>
      let ev := ({ touchEvent with
        touchPoints := p.setState TouchPointState.TouchPointReleased :: rest
        }).updateTouchPointStatesAndType
      let w1 := w.call h
        (SurfaceCall.touchEvent ev.modifiers ev.touchPoints ev.touchPointStates ev.timestamp)
      let w2 := w1.setItem { w1.item with m_lastTouchEvent := some ev }
      releaseOneByOne ev rest w2

/-- The method `MirSurfaceItem::endCurrentTouchSequence`; `none` when an assertion fails. -/
def endCurrentTouchSequence (w : World) (timestamp : Nat) : Option World :=
  match w.item.m_lastTouchEvent with
  | none => none
  | some last =>
    if last.type = TouchEnd then none
    else if last.touchPoints.length = 0 then none
    else
      let touchEvent := { last with timestamp := timestamp }
      let remaining := removeReleased touchEvent.touchPoints 0
      releaseOneByOne { touchEvent with touchPoints := remaining } remaining w

/-- A `TouchEvent` as `new TouchEvent` leaves it before its fields are assigned. -/
def TouchEvent.new : TouchEvent :=
  { type := 0, timestamp := 0, modifiers := 0, touchPoints := [], touchPointStates := 0 }

/-- The test at the head of `validateAndDeliverTouchEvent`: a Begin arrives while the recorded
sequence has not ended. -/
def needsRepair (w : World) (eventType : Int) : Bool :=
  match w.item.m_lastTouchEvent with
  | some last => decide (eventType = TouchBegin) && decide (last.type ≠ TouchEnd)
  | none => false

/-- The tail of `validateAndDeliverTouchEvent`: forward the batch and record it. -/
def deliverAndRecord (w : World) (b : TouchBatch) : Option World :=
  match w.item.m_surface with
  | none => none
  | some h =>
    let w1 := w.call h
      (SurfaceCall.touchEvent b.mods b.touchPoints b.touchPointStates b.timestamp)
    let last := match w1.item.m_lastTouchEvent with
      | some e => e
      | none => TouchEvent.new
    some (w1.setItem { w1.item with m_lastTouchEvent := some { last with
      type := b.eventType
      timestamp := b.timestamp
      touchPoints := b.touchPoints
      touchPointStates := b.touchPointStates } })

/-- The method `MirSurfaceItem::validateAndDeliverTouchEvent`. -/
def validateAndDeliverTouchEvent (w : World) (b : TouchBatch) : Option World :=
  (if needsRepair w b.eventType then endCurrentTouchSequence w b.timestamp else some w).bind
    fun w1 => deliverAndRecord w1 b

/-- The test `MirSurfaceItem::hasTouchInsideUbuntuKeyboard`. -/
def hasTouchInsideUbuntuKeyboard (kb : UbuntuKeyboardInfo) : List TouchPoint → Bool
  | [] => false
  | p :: ps =>
    if decide (p.x ≥ kb.x) && decide (p.x ≤ kb.x + kb.width)
        && decide (p.y ≥ kb.y) && decide (p.y ≤ kb.y + kb.height) then true
    else hasTouchInsideUbuntuKeyboard kb ps

/-- The method `MirSurfaceItem::processTouchEvent`: the world afterwards and the accepted
flag; `none` when an assertion fails on the way. -/
def processTouchEvent (kb : UbuntuKeyboardInfo) (w : World) (b : TouchBatch) :
    Option (World × Bool) :=
  match w.item.m_surface with
  | none => some (w, false)
  | some h =>
    if !w.item.m_consumesInput || !(w.surfaces h).live then some (w, false)
    else if type w = MirType.InputMethodType ∧ b.eventType = TouchBegin then
      if hasTouchInsideUbuntuKeyboard kb b.touchPoints then
        (validateAndDeliverTouchEvent w b).map fun w1 => (w1, true)
      else some (w, false)
    else (validateAndDeliverTouchEvent w b).map fun w1 => (w1, true)

/-- The touch batches a handle has received, oldest first. -/
def received (h : HandleId) : List Effect → List (List TouchPoint × Nat)
  | [] => []
  | Effect.call g (SurfaceCall.touchEvent _ pts states _) :: es =>
    if g = h then (pts, states) :: received h es else received h es
  | _ :: es => received h es

/-! ## The item as a state machine -/

/-- The method `MirSurfaceItem::setSurfaceWidth`; the size update it schedules runs later as
`updateMirSurfaceSize`. -/
def setSurfaceWidth (w : World) (value : Int) : World :=
  if value ≠ w.item.m_surfaceWidth then
    (w.setItem { w.item with m_surfaceWidth := value }).emit (Signal.surfaceWidthChanged value)
  else w

/-- The method `MirSurfaceItem::setSurfaceHeight`; the size update it schedules runs later as
`updateMirSurfaceSize`. -/
def setSurfaceHeight (w : World) (value : Int) : World :=
  if value ≠ w.item.m_surfaceHeight then
    (w.setItem { w.item with m_surfaceHeight := value }).emit (Signal.surfaceHeightChanged value)
  else w

/-- The toolkit changes the active focus of the item and the connected slot
`updateMirSurfaceFocus` runs. -/
def activeFocusChanged (w : World) (focused : Bool) : World :=
  updateMirSurfaceFocus (w.setItem { w.item with hasActiveFocus := focused }) focused

/-- The operations on an item. -/
inductive ItemOp where
  | setSurface (surface : Option HandleId)
  | setOrientationAngle (angle : OrientationAngle)
  | setConsumesInput (value : Bool)
  | activeFocusChanged (focused : Bool)
  | setSurfaceState (state : MirState)
  | setSurfaceWidth (value : Int)
  | setSurfaceHeight (value : Int)
  | updateMirSurfaceSize
  | processTouchEvent (kb : UbuntuKeyboardInfo) (b : TouchBatch)
  | mousePressEvent (kb : UbuntuKeyboardInfo) (event : MouseEvent)
  | mouseMoveEvent
  | mouseReleaseEvent
  | hoverEnterEvent
  | hoverLeaveEvent
  | hoverMoveEvent
  | keyPressEvent
  | keyReleaseEvent
  deriving DecidableEq, Repr

/-- One operation on the item; `none` when an assertion fails. -/
def step (w : World) : ItemOp → Option World
  | .setSurface surface => some (setSurface w surface)
  | .setOrientationAngle angle => setOrientationAngle w angle
  | .setConsumesInput value => some (setConsumesInput w value)
  | .activeFocusChanged focused => some (activeFocusChanged w focused)
  | .setSurfaceState state => some (setSurfaceState w state)
  | .setSurfaceWidth value => some (setSurfaceWidth w value)
  | .setSurfaceHeight value => some (setSurfaceHeight w value)
  | .updateMirSurfaceSize => some (updateMirSurfaceSize w)
  | .processTouchEvent kb b => (processTouchEvent kb w b).map Prod.fst
  | .mousePressEvent kb event => some (mousePressEvent kb w event).1
  | .mouseMoveEvent => some (mouseMoveEvent w).1
  | .mouseReleaseEvent => some (mouseReleaseEvent w).1
  | .hoverEnterEvent => some (hoverEnterEvent w).1
  | .hoverLeaveEvent => some (hoverLeaveEvent w).1
  | .hoverMoveEvent => some (hoverMoveEvent w).1
  | .keyPressEvent => some (keyPressEvent w).1
  | .keyReleaseEvent => some (keyReleaseEvent w).1

/-- A sequence of operations, left to right. -/
def run (w : World) : List ItemOp → Option World
  | [] => some w
  | op :: ops => (step w op).bind fun w1 => run w1 ops

/-- The states an item can be in: those some sequence of operations leads to from a freshly
constructed item. -/
def Reachable (w : World) : Prop :=
  ∃ surfaces ops, run (World.fresh surfaces) ops = some w

/-- The two operations that touch the orientation slot and the attachment. -/
inductive OrientOp where
  | setSurface (surface : Option HandleId)
  | setOrientationAngle (angle : OrientationAngle)
  deriving DecidableEq, Repr

/-- An orientation or attachment operation as an item operation. -/
def OrientOp.toItemOp : OrientOp → ItemOp
  | .setSurface surface => ItemOp.setSurface surface
  | .setOrientationAngle angle => ItemOp.setOrientationAngle angle

/-- No orientation is staged while a surface is attached. -/
def stagedXorAttached (w : World) : Prop :=
  ¬ (w.item.m_surface.isSome ∧ w.item.m_orientationAngle.isSome)

/-! ## What touch delivery leaves alone -/

/-- Touch delivery changes nothing but the recorded last batch and the trace. -/
def touchFrame (w w1 : World) : Prop :=
  w1.item = { w.item with m_lastTouchEvent := w1.item.m_lastTouchEvent } ∧
    w1.surfaces = w.surfaces

/-! ## Worlds used as concrete inputs -/

/-- A live surface of the ordinary kind. -/
def exampleSurface : MirSurface :=
  { type := MirType.NormalType
    name := "surface"
    appId := "app"
    live := true
    state := MirState.RestoredState
    orientationAngle := OrientationAngle.Angle0
    width := 100
    height := 200
    viewCount := 0
    focused := false }

/-- A fresh item among live ordinary surfaces. -/
def exampleWorld : World :=
  World.fresh fun _ => exampleSurface

/-- An item without a surface on which `Angle90` has been staged. -/
def stagedWorld : World :=
  (exampleWorld.setItem { exampleWorld.item with
    m_orientationAngle := some OrientationAngle.Angle90 }).emit
    (Signal.orientationAngleChanged OrientationAngle.Angle90)

/-! ## Reading the trace -/

/-- Calls on surfaces, among the effects. -/
def Effect.isCall : Effect → Bool
  | Effect.call _ _ => true
  | _ => false

/-- Calls of `setOrientationAngle` on a surface, among the effects. -/
def Effect.isSetOrientationAngle : Effect → Bool
  | Effect.call _ (SurfaceCall.setOrientationAngle _) => true
  | _ => false

/-! ## The effects of detaching and attaching -/

/-- What may follow the fixed opening of `attachNew` in the trace: the resize, the orientation
hand-over and the focus call on the new surface, the orientation connection and notification. -/
def Effect.isAttachTail (h : HandleId) : Effect → Bool
  | Effect.call g (SurfaceCall.resize _ _) => decide (g = h)
  | Effect.call g (SurfaceCall.setOrientationAngle _) => decide (g = h)
  | Effect.call g (SurfaceCall.setFocus _) => decide (g = h)
  | Effect.connect g SurfaceSignal.orientationAngleChanged => decide (g = h)
  | Effect.emit (Signal.orientationAngleChanged _) => true
  | _ => false

/-! ## Replacing the attached surface -/

/-- Surfaces of which number 1 is dead and all others are live. -/
def surfacesOneDead : HandleId → MirSurface :=
  fun h => if h = 1 then { exampleSurface with live := false } else exampleSurface

/-- An item that consumes input, has active focus and shows the dead surface 1. -/
def deadAttachedWorld : World :=
  setSurface (activeFocusChanged (setConsumesInput (World.fresh surfacesOneDead) true) true)
    (some 1)

/-- An item that consumes input and has no surface, among surfaces of which 1 is dead. -/
def consumingWorld : World :=
  setConsumesInput (World.fresh surfacesOneDead) true

/-- An item that consumes input, has active focus and shows the live surface 1. -/
def liveAttachedWorld : World :=
  setSurface (activeFocusChanged (setConsumesInput exampleWorld true) true) (some 1)

/-! ## The repair loops -/

/-- The point list with its first point released. -/
def releaseFirst : List TouchPoint → List TouchPoint
  | [] => []
  | p :: rest => p.setState TouchPointState.TouchPointReleased :: rest

/-- The points of a list that are not released. -/
def notReleased (touchPoints : List TouchPoint) : List TouchPoint :=
  touchPoints.filter fun p => decide (p.state ≠ TouchPointState.TouchPointReleased)

/-- The calls the second repair loop makes for a list of unreleased points: one per point,
each with the points from that one onward and the first of them released. -/
def syntheticBatches (mods ts : Nat) (h : HandleId) : List TouchPoint → List Effect
  | [] => []
  | p :: rest =>
    Effect.call h (SurfaceCall.touchEvent mods (releaseFirst (p :: rest))
      (orStates 0 (releaseFirst (p :: rest))) ts) :: syntheticBatches mods ts h rest

/-! ## Scenario C -/

/-- Batches one after the other: the world at the end and the accepted flags. -/
def processTouchEvents (kb : UbuntuKeyboardInfo) :
    World → List TouchBatch → Option (World × List Bool)
  | w, [] => some (w, [])
  | w, b :: bs =>
    (processTouchEvent kb w b).bind fun r =>
      (processTouchEvents kb r.1 bs).map fun q => (q.1, r.2 :: q.2)

/-- A keyboard rectangle. -/
def exampleKeyboard : UbuntuKeyboardInfo :=
  { x := 0, y := 0, width := 100, height := 50 }

/-- An item that consumes input and shows the live surface 1. -/
def touchWorld : World :=
  setSurface (setConsumesInput exampleWorld true) (some 1)

/-- Point 1, pressed. -/
def pt1Pressed : TouchPoint :=
  { id := 1, x := 10, y := 10, state := TouchPointState.TouchPointPressed }

/-- Point 1, moved. -/
def pt1Moved : TouchPoint :=
  { id := 1, x := 12, y := 11, state := TouchPointState.TouchPointMoved }

/-- Point 2, pressed. -/
def pt2Pressed : TouchPoint :=
  { id := 2, x := 40, y := 40, state := TouchPointState.TouchPointPressed }

/-- Point 3, pressed. -/
def pt3Pressed : TouchPoint :=
  { id := 3, x := 70, y := 70, state := TouchPointState.TouchPointPressed }

/-- Begin(pt1 pressed). -/
def beginPt1 : TouchBatch :=
  { eventType := TouchBegin, timestamp := 1, mods := 0, touchPoints := [pt1Pressed],
    touchPointStates := 1 }

/-- Update(pt1 moved, pt2 pressed). -/
def updatePt1Pt2 : TouchBatch :=
  { eventType := TouchUpdate, timestamp := 2, mods := 0, touchPoints := [pt1Moved, pt2Pressed],
    touchPointStates := 3 }

/-- Begin(pt3 pressed). -/
def beginPt3 : TouchBatch :=
  { eventType := TouchBegin, timestamp := 3, mods := 0, touchPoints := [pt3Pressed],
    touchPointStates := 1 }

/-- The item of `touchWorld` after Begin(pt1 pressed) and Update(pt1 moved, pt2 pressed). -/
def openSequenceWorld : World :=
  ((touchWorld.call 1 (SurfaceCall.touchEvent 0 [pt1Pressed] 1 1)).call 1
    (SurfaceCall.touchEvent 0 [pt1Moved, pt2Pressed] 3 2)).setItem
    { touchWorld.item with
      m_lastTouchEvent := some (TouchEvent.mk TouchUpdate 2 0 [pt1Moved, pt2Pressed] 3) }

/-! ## A Begin on an open sequence -/

/-- Point 1, released. -/
def pt1Released : TouchPoint :=
  { id := 1, x := 12, y := 11, state := TouchPointState.TouchPointReleased }

/-- An Update batch whose only point is released. -/
def updateReleasedPt1 : TouchBatch :=
  { eventType := TouchUpdate, timestamp := 2, mods := 0, touchPoints := [pt1Released],
    touchPointStates := 8 }

/-- The item of `touchWorld` after Begin(pt1 pressed) and an Update whose only point is
released. -/
def releasedUpdateWorld : World :=
  ((touchWorld.call 1 (SurfaceCall.touchEvent 0 [pt1Pressed] 1 1)).call 1
    (SurfaceCall.touchEvent 0 [pt1Released] 8 2)).setItem
    { touchWorld.item with
      m_lastTouchEvent := some (TouchEvent.mk TouchUpdate 2 0 [pt1Released] 8) }

/-! ## The gate of `processTouchEvent` -/

/-- Surfaces of the input-method kind, all live. -/
def inputMethodSurfaces : HandleId → MirSurface :=
  fun _ => { exampleSurface with type := MirType.InputMethodType }

/-- An item that consumes input and shows the live input-method surface 1. -/
def inputMethodWorld : World :=
  setSurface (setConsumesInput (World.fresh inputMethodSurfaces) true) (some 1)

/-- Point 3, moved; outside `exampleKeyboard`. -/
def pt3Moved : TouchPoint :=
  { id := 3, x := 70, y := 72, state := TouchPointState.TouchPointMoved }

/-- Update(pt3 moved). -/
def updatePt3 : TouchBatch :=
  { eventType := TouchUpdate, timestamp := 4, mods := 0, touchPoints := [pt3Moved],
    touchPointStates := 2 }

/-! ## The grammar of delivered batches -/

/-- The grammar a surface is to observe, as an automaton over the batches it receives (points
and aggregate of states; the event type is not passed to the surface, the kind of a batch is
the one its aggregate stands for). The flag says whether a sequence is open; the result is
the flag after the last batch, `none` when a batch is out of place. -/
def legalRun : Bool → List (List TouchPoint × Nat) → Option Bool
  | o, [] => some o
  | false, (pts, states) :: rest =>
    if typeOfStates states = TouchBegin ∧ pts ≠ [] then legalRun true rest else none
  | true, (pts, states) :: rest =>
    if typeOfStates states = TouchEnd then legalRun false rest
    else if typeOfStates states = TouchUpdate ∧ pts ≠ [] then legalRun true rest
    else none

/-- A batch as the toolkit builds it: some point, the aggregate of the states of its points, and
the event type that goes with the aggregate. -/
def wellFormedBatch (b : TouchBatch) : Bool :=
  decide (b.touchPoints ≠ []) && decide (b.touchPointStates = orStates 0 b.touchPoints)
    && decide (b.eventType = typeOfStates b.touchPointStates)

/-- A stream of well-formed batches that is legal except that an End may be missing before a
Begin: Update and End come only while a sequence is open, and on an input-method surface
every Begin has a point inside the keyboard. The flag says whether a sequence is open. -/
def admissible (kb : UbuntuKeyboardInfo) (inputMethod : Bool) : Bool → List TouchBatch → Bool
  | _, [] => true
  | o, b :: bs =>
    wellFormedBatch b &&
      (if b.eventType = TouchBegin then
        (!inputMethod || hasTouchInsideUbuntuKeyboard kb b.touchPoints) &&
          admissible kb inputMethod true bs
      else o && admissible kb inputMethod (decide (b.eventType ≠ TouchEnd)) bs)

/-- What the recorded batch says about the sequence: while one is open the recorded batch is
not an End and has a point that is not released; otherwise nothing is recorded or an End is. -/
def sequenceState (o : Bool) (w : World) : Prop :=
  if o = true then
    ∃ e, w.item.m_lastTouchEvent = some e ∧ e.type ≠ TouchEnd ∧
      1 ≤ (notReleased e.touchPoints).length
  else ∀ e, w.item.m_lastTouchEvent = some e → e.type = TouchEnd

/-! ## The assertions of the repair -/

/-- First assertion of `endCurrentTouchSequence`: a last batch is recorded. -/
def assertLastRecorded (w : World) : Bool :=
  w.item.m_lastTouchEvent.isSome

/-- Second assertion of `endCurrentTouchSequence`: the recorded batch is not an End. -/
def assertNotEnded (w : World) : Bool :=
  match w.item.m_lastTouchEvent with
  | some last => decide (last.type ≠ TouchEnd)
  | none => false

/-- Third assertion of `endCurrentTouchSequence`: the recorded batch has a touch point. -/
def assertHasTouchPoints (w : World) : Bool :=
  match w.item.m_lastTouchEvent with
  | some last => decide (last.touchPoints.length > 0)
  | none => false

/-- A Begin batch without touch points. -/
def beginNoPoints : TouchBatch :=
  { eventType := TouchBegin, timestamp := 1, mods := 0, touchPoints := [],
    touchPointStates := 0 }

/-- The item of `touchWorld` after the Begin batch without touch points. -/
def noPointsWorld : World :=
  (touchWorld.call 1 (SurfaceCall.touchEvent 0 [] 0 1)).setItem
    { touchWorld.item with m_lastTouchEvent := some (TouchEvent.mk TouchBegin 1 0 [] 0) }

/-! ## Basic facts about worlds -/

@[simp]
theorem World.call_item (w : World) (h : HandleId) (c : SurfaceCall) :
    (w.call h c).item = w.item := rfl

@[simp]
theorem World.call_trace (w : World) (h : HandleId) (c : SurfaceCall) :
    (w.call h c).trace = w.trace ++ [Effect.call h c] := rfl

@[simp]
theorem World.call_surfaces (w : World) (h : HandleId) (c : SurfaceCall) :
    (w.call h c).surfaces = Function.update w.surfaces h ((w.surfaces h).apply c) := rfl

@[simp]
theorem World.log_item (w : World) (e : Effect) : (w.log e).item = w.item := rfl

@[simp]
theorem World.log_trace (w : World) (e : Effect) :
    (w.log e).trace = w.trace ++ [e] := rfl

@[simp]
theorem World.log_surfaces (w : World) (e : Effect) :
    (w.log e).surfaces = w.surfaces := rfl

@[simp]
theorem World.emit_item (w : World) (s : Signal) : (w.emit s).item = w.item := rfl

@[simp]
theorem World.emit_trace (w : World) (s : Signal) :
    (w.emit s).trace = w.trace ++ [Effect.emit s] := rfl

@[simp]
theorem World.emit_surfaces (w : World) (s : Signal) :
    (w.emit s).surfaces = w.surfaces := rfl

@[simp]
theorem World.setItem_item (w : World) (i : MirSurfaceItem) :
    (w.setItem i).item = i := rfl

@[simp]
theorem World.setItem_trace (w : World) (i : MirSurfaceItem) :
    (w.setItem i).trace = w.trace := rfl

@[simp]
theorem World.setItem_surfaces (w : World) (i : MirSurfaceItem) :
    (w.setItem i).surfaces = w.surfaces := rfl

theorem effectsSince_append (w w1 : World) (es : List Effect) (h : w1.trace = w.trace ++ es) :
    effectsSince w w1 = es := by
  simp [effectsSince, h]

/-! ## What attaching and detaching leave alone -/

theorem updateMirSurfaceSize_item (w : World) : (updateMirSurfaceSize w).item = w.item := by
  unfold updateMirSurfaceSize
  split
  · rfl
  · split <;> rfl

theorem clearFocusOfCurrent_item (w : World) (old : HandleId) :
    (clearFocusOfCurrent w old).item = w.item := by
  unfold clearFocusOfCurrent
  split <;> rfl

theorem disconnectWindowIfHidden_item (w : World) (old : HandleId) :
    (disconnectWindowIfHidden w old).item = w.item := by
  unfold disconnectWindowIfHidden
  split <;> rfl

theorem disconnectWindowIfHidden_surfaces (w : World) (old : HandleId) :
    (disconnectWindowIfHidden w old).surfaces = w.surfaces := by
  unfold disconnectWindowIfHidden
  split <;> rfl

theorem releaseTexture_item (w : World) :
    (releaseTexture w).item =
      { w.item with m_textureProvider := (releaseTexture w).item.m_textureProvider } := by
  unfold releaseTexture
  split <;> rfl

theorem releaseTexture_surfaces (w : World) : (releaseTexture w).surfaces = w.surfaces := by
  unfold releaseTexture
  split <;> rfl

theorem releaseTexture_trace (w : World) : (releaseTexture w).trace = w.trace := by
  unfold releaseTexture
  split <;> rfl

theorem detachCurrent_item (w : World) :
    (detachCurrent w).item =
      { w.item with m_textureProvider := (detachCurrent w).item.m_textureProvider } := by
  unfold detachCurrent
  split
  · rfl
  · rw [releaseTexture_item]
    simp only [disconnectWindowIfHidden_item, World.call_item, clearFocusOfCurrent_item,
      World.log_item]

theorem detachCurrent_m_surface (w : World) :
    (detachCurrent w).item.m_surface = w.item.m_surface := by
  rw [detachCurrent_item]

theorem detachCurrent_m_orientationAngle (w : World) :
    (detachCurrent w).item.m_orientationAngle = w.item.m_orientationAngle := by
  rw [detachCurrent_item]

theorem pushFocus_item (w : World) (h : HandleId) : (pushFocus w h).item = w.item := by
  unfold pushFocus
  split <;> rfl

theorem applyOrientation_item (w : World) (h : HandleId) :
    (applyOrientation w h).item = { w.item with m_orientationAngle := none } := by
  unfold applyOrientation
  split
  · rfl
  · next hn =>
    simp only [World.emit_item, World.log_item]
    cases hi : w.item
    rw [hi] at hn
    simp only at hn
    subst hn
    rfl

theorem attachNew_m_surface (w : World) (h : HandleId) :
    (attachNew w h).item.m_surface = w.item.m_surface := by
  unfold attachNew
  rw [pushFocus_item, applyOrientation_item]
  simp [seedImplicitSize, updateMirSurfaceSize_item, announceSurface, connectSurface]

theorem attachNew_m_orientationAngle (w : World) (h : HandleId) :
    (attachNew w h).item.m_orientationAngle = none := by
  unfold attachNew
  rw [pushFocus_item, applyOrientation_item]

theorem setSurface_m_surface (w : World) (surface : Option HandleId) :
    (setSurface w surface).item.m_surface = surface := by
  unfold setSurface
  split
  · next h => exact h.symm
  · cases surface <;> simp [attachNew_m_surface]

theorem setSurface_stagedXorAttached (w : World) (surface : Option HandleId)
    (inv : stagedXorAttached w) : stagedXorAttached (setSurface w surface) := by
  unfold setSurface
  split
  · exact inv
  · cases surface
    · simp [stagedXorAttached]
    · simp [stagedXorAttached, attachNew_m_orientationAngle]

theorem touchFrame_refl (w : World) : touchFrame w w := ⟨rfl, rfl⟩

theorem touchFrame_trans {w w1 w2 : World} (h1 : touchFrame w w1) (h2 : touchFrame w1 w2) :
    touchFrame w w2 := by
  obtain ⟨a1, b1⟩ := h1
  obtain ⟨a2, b2⟩ := h2
  refine ⟨?_, b2.trans b1⟩
  rw [a2, a1]

theorem touchFrame_deliver (w : World) (h : HandleId) (mods : Nat) (pts : List TouchPoint)
    (states ts : Nat) (ev : TouchEvent) :
    touchFrame w ((w.call h (SurfaceCall.touchEvent mods pts states ts)).setItem
      { w.item with m_lastTouchEvent := some ev }) := by
  refine ⟨rfl, ?_⟩
  simp [MirSurface.apply]

theorem releaseOneByOne_frame (pts : List TouchPoint) :
    ∀ (ev : TouchEvent) (w w1 : World), releaseOneByOne ev pts w = some w1 → touchFrame w w1 := by
  induction pts with
  | nil =>
    intro ev w w1 h
    simp only [releaseOneByOne, Option.some.injEq] at h
    subst h
    exact touchFrame_refl w
  | cons p rest ih =>
    intro ev w w1 h
    simp only [releaseOneByOne] at h
    split at h
    · exact absurd h (by simp)
    · next g hg =>
      exact touchFrame_trans (touchFrame_deliver w g _ _ _ _ _) (ih _ _ _ h)

theorem endCurrentTouchSequence_frame (w w1 : World) (ts : Nat)
    (h : endCurrentTouchSequence w ts = some w1) : touchFrame w w1 := by
  unfold endCurrentTouchSequence at h
  split at h
  · exact absurd h (by simp)
  · split at h
    · exact absurd h (by simp)
    · split at h
      · exact absurd h (by simp)
      · exact releaseOneByOne_frame _ _ _ _ h

theorem deliverAndRecord_frame (w w1 : World) (b : TouchBatch)
    (h : deliverAndRecord w b = some w1) : touchFrame w w1 := by
  unfold deliverAndRecord at h
  split at h
  · exact absurd h (by simp)
  · simp only [Option.some.injEq] at h
    subst h
    exact touchFrame_deliver w _ _ _ _ _ _

theorem validateAndDeliverTouchEvent_frame (w w1 : World) (b : TouchBatch)
    (h : validateAndDeliverTouchEvent w b = some w1) : touchFrame w w1 := by
  unfold validateAndDeliverTouchEvent at h
  rw [Option.bind_eq_some] at h
  obtain ⟨w0, h0, h1⟩ := h
  refine touchFrame_trans ?_ (deliverAndRecord_frame _ _ _ h1)
  split at h0
  · exact endCurrentTouchSequence_frame _ _ _ h0
  · simp only [Option.some.injEq] at h0
    subst h0
    exact touchFrame_refl w

theorem processTouchEvent_frame (kb : UbuntuKeyboardInfo) (w w1 : World) (b : TouchBatch)
    (acc : Bool) (h : processTouchEvent kb w b = some (w1, acc)) : touchFrame w w1 := by
  unfold processTouchEvent at h
  split at h
  · simp only [Option.some.injEq, Prod.mk.injEq] at h
    rw [← h.1]
    exact touchFrame_refl w
  · split at h
    · simp only [Option.some.injEq, Prod.mk.injEq] at h
      rw [← h.1]
      exact touchFrame_refl w
    · split at h
      · split at h
        · rw [Option.map_eq_some'] at h
          obtain ⟨w0, h0, h1⟩ := h
          simp only [Prod.mk.injEq] at h1
          rw [← h1.1]
          exact validateAndDeliverTouchEvent_frame _ _ _ h0
        · simp only [Option.some.injEq, Prod.mk.injEq] at h
          rw [← h.1]
          exact touchFrame_refl w
      · rw [Option.map_eq_some'] at h
        obtain ⟨w0, h0, h1⟩ := h
        simp only [Prod.mk.injEq] at h1
        rw [← h1.1]
        exact validateAndDeliverTouchEvent_frame _ _ _ h0

/-! ## The staged orientation and the attachment exclude each other -/

theorem setOrientationAngle_stagedXorAttached (w w1 : World) (a : OrientationAngle)
    (h : setOrientationAngle w a = some w1) : stagedXorAttached w1 := by
  unfold setOrientationAngle at h
  split at h
  · next g hg =>
    split at h
    · exact absurd h (by simp)
    · next hs =>
      simp only [Option.some.injEq] at h
      subst h
      simp only [stagedXorAttached, World.call_item]
      exact fun c => hs c.2
  · next hg =>
    have key : w1.item.m_surface = none := by
      split at h
      · simp only [Option.some.injEq] at h
        subst h
        simpa using hg
      · split at h <;> simp only [Option.some.injEq] at h <;> subst h <;> simpa using hg
    simp [stagedXorAttached, key]

theorem forwardInput_item (w : World) (c : SurfaceCall) : (forwardInput w c).1.item = w.item := by
  unfold forwardInput
  split
  · split <;> rfl
  · rfl

theorem stagedXorAttached_of_same {w w1 : World} (inv : stagedXorAttached w)
    (h1 : w1.item.m_surface = w.item.m_surface)
    (h2 : w1.item.m_orientationAngle = w.item.m_orientationAngle) : stagedXorAttached w1 := by
  simpa [stagedXorAttached, h1, h2] using inv

theorem mousePressEvent_item (kb : UbuntuKeyboardInfo) (w : World) (event : MouseEvent) :
    (mousePressEvent kb w event).1.item = w.item := by
  unfold mousePressEvent
  split
  · split
    · split
      · split <;> rfl
      · rfl
    · rfl
  · rfl

theorem step_stagedXorAttached (w w1 : World) (op : ItemOp) (h : step w op = some w1)
    (inv : stagedXorAttached w) : stagedXorAttached w1 := by
  cases op with
  | setSurface surface =>
    simp only [step, Option.some.injEq] at h
    subst h
    exact setSurface_stagedXorAttached w surface inv
  | setOrientationAngle angle => exact setOrientationAngle_stagedXorAttached w w1 angle h
  | setConsumesInput value =>
    simp only [step, Option.some.injEq] at h
    subst h
    unfold setConsumesInput
    split <;> exact stagedXorAttached_of_same inv rfl rfl
  | activeFocusChanged focused =>
    simp only [step, Option.some.injEq] at h
    subst h
    unfold activeFocusChanged updateMirSurfaceFocus
    split
    · split <;> exact stagedXorAttached_of_same inv rfl rfl
    · exact stagedXorAttached_of_same inv rfl rfl
  | setSurfaceState state =>
    simp only [step, Option.some.injEq] at h
    subst h
    unfold setSurfaceState
    split <;> exact stagedXorAttached_of_same inv rfl rfl
  | setSurfaceWidth value =>
    simp only [step, Option.some.injEq] at h
    subst h
    unfold setSurfaceWidth
    split <;> exact stagedXorAttached_of_same inv rfl rfl
  | setSurfaceHeight value =>
    simp only [step, Option.some.injEq] at h
    subst h
    unfold setSurfaceHeight
    split <;> exact stagedXorAttached_of_same inv rfl rfl
  | updateMirSurfaceSize =>
    simp only [step, Option.some.injEq] at h
    subst h
    exact stagedXorAttached_of_same inv (by rw [updateMirSurfaceSize_item])
      (by rw [updateMirSurfaceSize_item])
  | processTouchEvent kb b =>
    simp only [step, Option.map_eq_some'] at h
    obtain ⟨⟨w0, acc⟩, h0, h1⟩ := h
    simp only at h1
    subst h1
    have fr := (processTouchEvent_frame kb w w0 b acc h0).1
    exact stagedXorAttached_of_same inv (by rw [fr]) (by rw [fr])
  | mousePressEvent kb event =>
    simp only [step, Option.some.injEq] at h
    subst h
    exact stagedXorAttached_of_same inv (by rw [mousePressEvent_item])
      (by rw [mousePressEvent_item])
  | mouseMoveEvent | mouseReleaseEvent | hoverEnterEvent | hoverLeaveEvent | hoverMoveEvent
  | keyPressEvent | keyReleaseEvent =>
    simp only [step, Option.some.injEq] at h
    subst h
    exact stagedXorAttached_of_same inv (by simp only [mouseMoveEvent, mouseReleaseEvent,
      hoverEnterEvent, hoverLeaveEvent, hoverMoveEvent, keyPressEvent, keyReleaseEvent,
      forwardInput_item])
      (by simp only [mouseMoveEvent, mouseReleaseEvent, hoverEnterEvent,
      hoverLeaveEvent, hoverMoveEvent, keyPressEvent, keyReleaseEvent, forwardInput_item])

theorem run_stagedXorAttached (ops : List ItemOp) :
    ∀ (w w1 : World), run w ops = some w1 → stagedXorAttached w → stagedXorAttached w1 := by
  induction ops with
  | nil =>
    intro w w1 h inv
    simp only [run, Option.some.injEq] at h
    subst h
    exact inv
  | cons op ops ih =>
    intro w w1 h inv
    simp only [run, Option.bind_eq_some] at h
    obtain ⟨w0, h0, h1⟩ := h
    exact ih w0 w1 h1 (step_stagedXorAttached w w0 op h0 inv)

theorem fresh_stagedXorAttached (surfaces : HandleId → MirSurface) :
    stagedXorAttached (World.fresh surfaces) := by
  simp [stagedXorAttached, World.fresh, MirSurfaceItem.new]

theorem Reachable.stagedXorAttached {w : World} (h : Reachable w) : stagedXorAttached w := by
  obtain ⟨surfaces, ops, hrun⟩ := h
  exact run_stagedXorAttached ops _ _ hrun (fresh_stagedXorAttached surfaces)

theorem exampleWorld_reachable : Reachable exampleWorld :=
  ⟨fun _ => exampleSurface, [], rfl⟩

theorem stagedWorld_reachable : Reachable stagedWorld :=
  ⟨fun _ => exampleSurface, [ItemOp.setOrientationAngle OrientationAngle.Angle90], rfl⟩

/-! ## Orientation staging -/

theorem orientationAngle_isSome_of_inv (w : World) (inv : stagedXorAttached w) :
    (orientationAngle w).isSome = true := by
  unfold orientationAngle
  split
  · next a ha =>
    split
    · next hs => exact absurd ⟨hs, by simp [ha]⟩ inv
    · rfl
  · split <;> rfl

theorem setOrientationAngle_isSome_of_inv (w : World) (inv : stagedXorAttached w)
    (a : OrientationAngle) : (setOrientationAngle w a).isSome = true := by
  unfold setOrientationAngle
  split
  · next g hg =>
    split
    · next hs => exact absurd ⟨by simp [hg], hs⟩ inv
    · rfl
  · split
    · rfl
    · split <;> rfl

theorem run_orientOps (ops : List OrientOp) :
    ∀ w : World, stagedXorAttached w →
      ∃ w1, run w (ops.map OrientOp.toItemOp) = some w1 ∧ stagedXorAttached w1 := by
  induction ops with
  | nil => exact fun w inv => ⟨w, rfl, inv⟩
  | cons op ops ih =>
    intro w inv
    cases op with
    | setSurface surface =>
      obtain ⟨w1, h1, inv1⟩ := ih (setSurface w surface)
        (setSurface_stagedXorAttached w surface inv)
      exact ⟨w1, by simpa [run, step, OrientOp.toItemOp] using h1, inv1⟩
    | setOrientationAngle angle =>
      obtain ⟨w0, h0⟩ := Option.isSome_iff_exists.mp
        (setOrientationAngle_isSome_of_inv w inv angle)
      obtain ⟨w1, h1, inv1⟩ := ih w0 (setOrientationAngle_stagedXorAttached w w0 angle h0)
      exact ⟨w1, by simpa [run, step, OrientOp.toItemOp, h0] using h1, inv1⟩

/-- C8: from a freshly constructed item, every sequence of `setSurface` and
`setOrientationAngle` calls runs to the end without an assertion failing, and in the state it
reaches a staged orientation and an attached surface do not exist together, so the assertions
of `orientationAngle` and `setOrientationAngle` hold there as well. -/
theorem staged_orientation_excludes_surface (surfaces : HandleId → MirSurface)
    (ops : List OrientOp) :
    ∃ w, run (World.fresh surfaces) (ops.map OrientOp.toItemOp) = some w ∧
      ¬ (w.item.m_surface.isSome ∧ w.item.m_orientationAngle.isSome) ∧
      (orientationAngle w).isSome = true ∧
      ∀ a, (setOrientationAngle w a).isSome = true := by
  obtain ⟨w, hrun, inv⟩ := run_orientOps ops (World.fresh surfaces)
    (fresh_stagedXorAttached surfaces)
  exact ⟨w, hrun, inv, orientationAngle_isSome_of_inv w inv,
    setOrientationAngle_isSome_of_inv w inv⟩

/-- C9: `setSurface` with the surface that is already attached (or with null when nothing is
attached) returns the world as it was: same item, same surfaces, nothing added to the trace. -/
theorem setSurface_same_is_noop (w : World) :
    setSurface w w.item.m_surface = w ∧
      effectsSince w (setSurface w w.item.m_surface) = [] := by
  have h : setSurface w w.item.m_surface = w := by simp [setSurface]
  rw [h]
  exact ⟨rfl, by simp [effectsSince]⟩

/-- C10 as stated fails: on an item without a surface on which `Angle90` is staged,
`orientationAngle()` answers `Angle90`, not `Angle0`. -/
theorem accessors_default_counterexample :
    stagedWorld.item.m_surface = none ∧
      orientationAngle stagedWorld = some OrientationAngle.Angle90 ∧
      ¬ (∀ w : World, w.item.m_surface = none →
          orientationAngle w = some OrientationAngle.Angle0) := by
  refine ⟨rfl, rfl, fun h => ?_⟩
  have h1 := h stagedWorld rfl
  exact absurd h1 (by decide)

/-- C10 (amended): without a surface, `orientationAngle()` is the staged orientation when one
is staged and `Angle0` otherwise, `name()` is empty, `appId()` is "-", `surfaceState()` is
Unknown, `type()` is UnknownType, `live()` is false, and `setSurfaceState` changes nothing. -/
theorem accessors_without_surface (w : World) (h : w.item.m_surface = none) :
    orientationAngle w = some (w.item.m_orientationAngle.getD OrientationAngle.Angle0) ∧
      name w = "" ∧ appId w = "-" ∧ surfaceState w = MirState.UnknownState ∧
      type w = MirType.UnknownType ∧ live w = false ∧
      ∀ state, setSurfaceState w state = w := by
  refine ⟨?_, ?_, ?_, ?_, ?_, ?_, ?_⟩
  · unfold orientationAngle
    cases ha : w.item.m_orientationAngle <;> simp [h]
  · simp [name, h]
  · simp [appId, h]
  · simp [surfaceState, h]
  · simp [type, h]
  · simp [live, h]
  · intro state
    simp [setSurfaceState, h]

/-- Witness for C10 (amended): the item with `Angle90` staged and no surface. -/
theorem accessors_without_surface_witness :
    stagedWorld.item.m_surface = none ∧
      orientationAngle stagedWorld = some OrientationAngle.Angle90 ∧
      name stagedWorld = "" ∧ appId stagedWorld = "-" ∧
      surfaceState stagedWorld = MirState.UnknownState ∧
      type stagedWorld = MirType.UnknownType ∧ live stagedWorld = false ∧
      ∀ state, setSurfaceState stagedWorld state = stagedWorld :=
  ⟨rfl, accessors_without_surface stagedWorld rfl⟩

theorem setOrientationAngle_unattached (w : World) (a : OrientationAngle)
    (hs : w.item.m_surface = none) :
    ∃ w1, setOrientationAngle w a = some w1 ∧
      w1.item.m_orientationAngle = some a ∧ w1.item.m_surface = none ∧
      (effectsSince w w1).filter Effect.isCall = [] := by
  cases ho : w.item.m_orientationAngle with
  | none =>
    exact ⟨(w.setItem { w.item with m_orientationAngle := some a }).emit
      (Signal.orientationAngleChanged a), by simp [setOrientationAngle, hs, ho], rfl, hs,
      by simp [effectsSince, Effect.isCall]⟩
  | some old =>
    by_cases hne : old = a
    · subst hne
      exact ⟨w, by simp [setOrientationAngle, hs, ho], ho, hs, by simp [effectsSince]⟩
    · exact ⟨(w.setItem { w.item with m_orientationAngle := some a }).emit
        (Signal.orientationAngleChanged a), by simp [setOrientationAngle, hs, ho, hne], rfl, hs,
        by simp [effectsSince, Effect.isCall]⟩

theorem setSurface_applies_staged (w : World) (a : OrientationAngle) (H : HandleId)
    (hs : w.item.m_surface = none) (ha : w.item.m_orientationAngle = some a) :
    (effectsSince w (setSurface w (some H))).filter Effect.isSetOrientationAngle
        = [Effect.call H (SurfaceCall.setOrientationAngle a)] ∧
      (setSurface w (some H)).item.m_orientationAngle = none ∧
      (setSurface w (some H)).item.m_surface = some H ∧
      ((setSurface w (some H)).surfaces H).orientationAngle = a := by
  refine ⟨?_, ?_, setSurface_m_surface w (some H), ?_⟩
  · simp [setSurface, detachCurrent, attachNew, pushFocus, applyOrientation, seedImplicitSize,
      announceSurface, connectSurface, updateMirSurfaceSize, hs, ha, effectsSince]
    split_ifs <;> simp [List.filter, Effect.isSetOrientationAngle]
  · simp [setSurface, hs, attachNew_m_orientationAngle]
  · simp [setSurface, detachCurrent, attachNew, pushFocus, applyOrientation, seedImplicitSize,
      announceSurface, connectSurface, updateMirSurfaceSize, hs, ha]
    split_ifs <;> simp [MirSurface.apply]

/-- C5: orientation staging, on any state `w` the item can be in. Without a surface,
`setOrientationAngle(a)` succeeds, stores `a` as the staged orientation and calls no surface;
a following `setSurface(H)` calls `H.setOrientationAngle(a)` exactly once (and no other
orientation setter), leaves no staged orientation, and `H` then reports `a`. With a surface
`h` attached, `setOrientationAngle(a)` succeeds, its only effect is the call
`h.setOrientationAngle(a)`, and the staged slot is empty afterwards. -/
theorem orientation_staging (w : World) (a : OrientationAngle) (reach : Reachable w) :
    match w.item.m_surface with
    | none =>
      ∃ w1, setOrientationAngle w a = some w1 ∧
        w1.item.m_orientationAngle = some a ∧ w1.item.m_surface = none ∧
        (effectsSince w w1).filter Effect.isCall = [] ∧
        ∀ H : HandleId,
          (effectsSince w1 (setSurface w1 (some H))).filter Effect.isSetOrientationAngle
            = [Effect.call H (SurfaceCall.setOrientationAngle a)] ∧
          (setSurface w1 (some H)).item.m_orientationAngle = none ∧
          (setSurface w1 (some H)).item.m_surface = some H ∧
          ((setSurface w1 (some H)).surfaces H).orientationAngle = a
    | some h =>
      ∃ w1, setOrientationAngle w a = some w1 ∧
        effectsSince w w1 = [Effect.call h (SurfaceCall.setOrientationAngle a)] ∧
        w1.item.m_orientationAngle = none ∧ w1.item.m_surface = some h ∧
        (w1.surfaces h).orientationAngle = a := by
  have inv := reach.stagedXorAttached
  split
  · next hs =>
    obtain ⟨w1, h1, h2, h3, h4⟩ := setOrientationAngle_unattached w a hs
    exact ⟨w1, h1, h2, h3, h4, fun H => setSurface_applies_staged w1 a H h3 h2⟩
  · next h hs =>
    have hno : w.item.m_orientationAngle = none := by
      cases ho : w.item.m_orientationAngle with
      | none => rfl
      | some o => exact absurd ⟨by simp [hs], by simp [ho]⟩ inv
    refine ⟨w.call h (SurfaceCall.setOrientationAngle a), ?_, ?_, hno, hs, ?_⟩
    · simp [setOrientationAngle, hs, hno]
    · simp [effectsSince]
    · simp [MirSurface.apply]

/-- Witness for C5 (Scenario B): on a fresh item `setOrientationAngle(90)` stages the angle,
and `setSurface(1)` then hands it to surface 1 exactly once and clears the staged slot. -/
theorem orientation_staging_witness :
    Reachable exampleWorld ∧
      ∃ w1, setOrientationAngle exampleWorld OrientationAngle.Angle90 = some w1 ∧
        w1.item.m_orientationAngle = some OrientationAngle.Angle90 ∧
        w1.item.m_surface = none ∧
        (effectsSince exampleWorld w1).filter Effect.isCall = [] ∧
        ∀ H : HandleId,
          (effectsSince w1 (setSurface w1 (some H))).filter Effect.isSetOrientationAngle
            = [Effect.call H (SurfaceCall.setOrientationAngle OrientationAngle.Angle90)] ∧
          (setSurface w1 (some H)).item.m_orientationAngle = none ∧
          (setSurface w1 (some H)).item.m_surface = some H ∧
          ((setSurface w1 (some H)).surfaces H).orientationAngle = OrientationAngle.Angle90 :=
  ⟨exampleWorld_reachable,
    orientation_staging exampleWorld OrientationAngle.Angle90 exampleWorld_reachable⟩

/-! ## The effects of replacing the attached surface -/

theorem detachCurrent_trace (w : World) (old : HandleId) (hs : w.item.m_surface = some old) :
    ∃ tail, (detachCurrent w).trace = w.trace ++ ([Effect.disconnect old] ++
        (if w.item.hasActiveFocus && w.item.m_consumesInput && (w.surfaces old).live then
          [Effect.call old (SurfaceCall.setFocus false)] else []) ++
        [Effect.call old SurfaceCall.decrementViewCount] ++ tail) ∧
      ∀ e ∈ tail, e = Effect.disconnectWindow old := by
  unfold detachCurrent
  simp only [hs, releaseTexture_trace]
  unfold disconnectWindowIfHidden clearFocusOfCurrent
  simp only [World.log_item, World.log_surfaces]
  split_ifs <;> simp

theorem detachCurrent_surfaces (w : World) (old : HandleId)
    (hs : w.item.m_surface = some old) :
    (∀ g, g ≠ old → (detachCurrent w).surfaces g = w.surfaces g) ∧
      ((detachCurrent w).surfaces old).viewCount = (w.surfaces old).viewCount - 1 := by
  unfold detachCurrent
  simp only [hs, releaseTexture_surfaces, disconnectWindowIfHidden_surfaces]
  unfold clearFocusOfCurrent
  simp only [World.log_item, World.log_surfaces]
  constructor
  · intro g hg
    split_ifs <;> simp [hg]
  · split_ifs <;> simp [MirSurface.apply]

theorem updateMirSurfaceSize_trace (w : World) (h : HandleId)
    (hs : w.item.m_surface = some h) :
    ∃ tail, (updateMirSurfaceSize w).trace = w.trace ++ tail ∧
      (updateMirSurfaceSize w).surfaces = w.surfaces ∧
      ∀ e ∈ tail, Effect.isAttachTail h e = true := by
  unfold updateMirSurfaceSize
  simp only [hs]
  split
  · exact ⟨[], by simp, rfl, by simp⟩
  · exact ⟨_, rfl, by simp [MirSurface.apply], by simp [Effect.isAttachTail]⟩

theorem applyOrientation_trace (w : World) (h : HandleId) :
    ∃ tail, (applyOrientation w h).trace = w.trace ++ tail ∧
      (∀ g, g ≠ h → (applyOrientation w h).surfaces g = w.surfaces g) ∧
      ((applyOrientation w h).surfaces h).viewCount = (w.surfaces h).viewCount ∧
      ∀ e ∈ tail, Effect.isAttachTail h e = true := by
  unfold applyOrientation
  split
  · refine ⟨_, by simp only [World.setItem_trace, World.log_trace, World.call_trace,
      List.append_assoc]; rfl, ?_, ?_, ?_⟩
    · intro g hg
      simp [hg]
    · simp [MirSurface.apply]
    · simp [Effect.isAttachTail]
  · refine ⟨_, by simp only [World.emit_trace, World.log_trace, List.append_assoc]; rfl,
      ?_, ?_, ?_⟩
    · intro g _
      rfl
    · rfl
    · simp [Effect.isAttachTail]

theorem pushFocus_trace (w : World) (h : HandleId) :
    ∃ tail, (pushFocus w h).trace = w.trace ++ tail ∧
      (∀ g, g ≠ h → (pushFocus w h).surfaces g = w.surfaces g) ∧
      ((pushFocus w h).surfaces h).viewCount = (w.surfaces h).viewCount ∧
      ∀ e ∈ tail, Effect.isAttachTail h e = true := by
  unfold pushFocus
  split
  · refine ⟨_, rfl, ?_, ?_, ?_⟩
    · intro g hg
      simp [hg]
    · simp [MirSurface.apply]
    · simp [Effect.isAttachTail]
  · exact ⟨[], by simp, fun _ _ => rfl, rfl, by simp⟩

theorem attachNew_trace (w : World) (h : HandleId) (hs : w.item.m_surface = some h) :
    ∃ tail, (attachNew w h).trace = w.trace ++ ([Effect.call h SurfaceCall.incrementViewCount,
        Effect.connect h SurfaceSignal.framesPosted,
        Effect.connect h SurfaceSignal.stateChanged,
        Effect.connect h SurfaceSignal.liveChanged,
        Effect.connect h SurfaceSignal.sizeChanged,
        Effect.connectFrameSwapped h,
        Effect.emit (Signal.typeChanged (w.surfaces h).type),
        Effect.emit (Signal.liveChanged true),
        Effect.emit (Signal.surfaceStateChanged (w.surfaces h).state)] ++ tail) ∧
      (∀ g, g ≠ h → (attachNew w h).surfaces g = w.surfaces g) ∧
      ((attachNew w h).surfaces h).viewCount = (w.surfaces h).viewCount + 1 ∧
      ∀ e ∈ tail, Effect.isAttachTail h e = true := by
  unfold attachNew
  obtain ⟨t3, e3, s3, v3, p3⟩ := pushFocus_trace (applyOrientation (seedImplicitSize
    (updateMirSurfaceSize (announceSurface (connectSurface
      (w.call h SurfaceCall.incrementViewCount) h) h)) h) h) h
  obtain ⟨t2, e2, s2, v2, p2⟩ := applyOrientation_trace (seedImplicitSize
    (updateMirSurfaceSize (announceSurface (connectSurface
      (w.call h SurfaceCall.incrementViewCount) h) h)) h) h
  obtain ⟨t1, e1, s1, p1⟩ := updateMirSurfaceSize_trace (announceSurface (connectSurface
      (w.call h SurfaceCall.incrementViewCount) h) h) h
      (by simpa [announceSurface, connectSurface] using hs)
  refine ⟨t1 ++ t2 ++ t3, ?_, ?_, ?_, ?_⟩
  · rw [e3, e2]
    simp only [seedImplicitSize, World.setItem_trace]
    rw [e1]
    simp [announceSurface, connectSurface, MirSurface.apply]
  · intro g hg
    rw [s3 g hg, s2 g hg]
    simp only [seedImplicitSize, World.setItem_surfaces]
    rw [s1]
    simp [announceSurface, connectSurface, hg]
  · rw [v3, v2]
    simp only [seedImplicitSize, World.setItem_surfaces]
    rw [s1]
    simp [announceSurface, connectSurface, MirSurface.apply]
  · intro e he
    simp only [List.mem_append] at he
    rcases he with (he | he) | he
    · exact p1 e he
    · exact p2 e he
    · exact p3 e he

/-- C6 as stated fails: with the dead surface 1 attached, active focus and input consumption
on, `setSurface(2)` makes no `setFocus(false)` call on surface 1. -/
theorem replace_surface_counterexample :
    deadAttachedWorld.item.m_surface = some 1 ∧
      deadAttachedWorld.item.hasActiveFocus = true ∧
      deadAttachedWorld.item.m_consumesInput = true ∧
      (deadAttachedWorld.surfaces 2).live = true ∧
      Effect.call 1 (SurfaceCall.setFocus false) ∉
        effectsSince deadAttachedWorld (setSurface deadAttachedWorld (some 2)) := by
  refine ⟨by decide, by decide, by decide, by decide, by decide⟩

theorem setSurface_replace (w : World) (h1 h2 : HandleId) (hne : h1 ≠ h2)
    (hs : w.item.m_surface = some h1) :
    ∃ tailD tailA, effectsSince w (setSurface w (some h2)) =
        [Effect.disconnect h1] ++
        (if w.item.hasActiveFocus && w.item.m_consumesInput && (w.surfaces h1).live then
          [Effect.call h1 (SurfaceCall.setFocus false)] else []) ++
        [Effect.call h1 SurfaceCall.decrementViewCount] ++ tailD ++
        [Effect.call h2 SurfaceCall.incrementViewCount,
          Effect.connect h2 SurfaceSignal.framesPosted,
          Effect.connect h2 SurfaceSignal.stateChanged,
          Effect.connect h2 SurfaceSignal.liveChanged,
          Effect.connect h2 SurfaceSignal.sizeChanged,
          Effect.connectFrameSwapped h2,
          Effect.emit (Signal.typeChanged (w.surfaces h2).type),
          Effect.emit (Signal.liveChanged true),
          Effect.emit (Signal.surfaceStateChanged (w.surfaces h2).state)] ++ tailA ++
        [Effect.update, Effect.emit (Signal.surfaceChanged (some h2))] ∧
      (∀ e ∈ tailD, e = Effect.disconnectWindow h1) ∧
      (∀ e ∈ tailA, Effect.isAttachTail h2 e = true) ∧
      ((setSurface w (some h2)).surfaces h1).viewCount = (w.surfaces h1).viewCount - 1 ∧
      ((setSurface w (some h2)).surfaces h2).viewCount = (w.surfaces h2).viewCount + 1 := by
  have hne2 : h2 ≠ h1 := fun e => hne e.symm
  have hne3 : ¬ some h2 = w.item.m_surface := by
    rw [hs]
    exact fun e => hne2 (Option.some.inj e)
  obtain ⟨tailD, eD, pD⟩ := detachCurrent_trace w h1 hs
  obtain ⟨sD, vD⟩ := detachCurrent_surfaces w h1 hs
  obtain ⟨tailA, eA, sA, vA, pA⟩ := attachNew_trace
    ((detachCurrent w).setItem { (detachCurrent w).item with m_surface := some h2 }) h2 rfl
  have hfin : setSurface w (some h2) =
      ((attachNew ((detachCurrent w).setItem
        { (detachCurrent w).item with m_surface := some h2 }) h2).log Effect.update).emit
        (Signal.surfaceChanged (some h2)) := by
    simp only [setSurface, hne3, if_false, World.setItem_item]
    rw [attachNew_m_surface]
    rfl
  refine ⟨tailD, tailA, ?_, pD, pA, ?_, ?_⟩
  · apply effectsSince_append
    rw [hfin]
    simp only [World.emit_trace, World.log_trace, eA, World.setItem_trace, eD,
      World.setItem_surfaces, sD h2 hne2]
    simp [List.append_assoc]
  · rw [hfin]
    simp only [World.emit_surfaces, World.log_surfaces]
    rw [sA h1 hne, World.setItem_surfaces, vD]
  · rw [hfin]
    simp only [World.emit_surfaces, World.log_surfaces]
    rw [vA, World.setItem_surfaces, sD h2 hne2]

/-- C6 (amended): with a live surface `h1` attached, active focus and input consumption on,
`setSurface(h2)` for another surface `h2` calls `h1.setFocus(false)` once, decrements the view
count of `h1` once, increments the view count of `h2` once, makes `h2` the attached surface and
emits `typeChanged` and `surfaceStateChanged` with the type and state of `h2`, and
`liveChanged` with the live flag of `h2` when `h2` is live. -/
theorem replace_surface (w : World) (h1 h2 : HandleId) (hne : h1 ≠ h2)
    (hs : w.item.m_surface = some h1) (hl : (w.surfaces h1).live = true)
    (hf : w.item.hasActiveFocus = true) (hc : w.item.m_consumesInput = true) :
    (effectsSince w (setSurface w (some h2))).count
        (Effect.call h1 (SurfaceCall.setFocus false)) = 1 ∧
      (effectsSince w (setSurface w (some h2))).count
        (Effect.call h1 SurfaceCall.decrementViewCount) = 1 ∧
      (effectsSince w (setSurface w (some h2))).count
        (Effect.call h2 SurfaceCall.incrementViewCount) = 1 ∧
      ((setSurface w (some h2)).surfaces h1).viewCount = (w.surfaces h1).viewCount - 1 ∧
      ((setSurface w (some h2)).surfaces h2).viewCount = (w.surfaces h2).viewCount + 1 ∧
      (setSurface w (some h2)).item.m_surface = some h2 ∧
      Effect.emit (Signal.typeChanged (w.surfaces h2).type) ∈
        effectsSince w (setSurface w (some h2)) ∧
      Effect.emit (Signal.surfaceStateChanged (w.surfaces h2).state) ∈
        effectsSince w (setSurface w (some h2)) ∧
      ((w.surfaces h2).live = true →
        Effect.emit (Signal.liveChanged (w.surfaces h2).live) ∈
          effectsSince w (setSurface w (some h2))) := by
  have hne2 : h2 ≠ h1 := fun e => hne e.symm
  obtain ⟨tailD, tailA, eq, pD, pA, v1, v2⟩ := setSurface_replace w h1 h2 hne hs
  have cD : ∀ e : Effect, e ≠ Effect.disconnectWindow h1 → tailD.count e = 0 := by
    intro e he
    rw [List.count_eq_zero]
    exact fun hm => he (pD e hm)
  have cA : ∀ e : Effect, Effect.isAttachTail h2 e = false → tailA.count e = 0 := by
    intro e he
    rw [List.count_eq_zero]
    intro hm
    rw [pA e hm] at he
    exact absurd he (by simp)
  rw [eq]
  simp only [hl, hf, hc, Bool.and_self, if_true]
  refine ⟨?_, ?_, ?_, v1, v2, setSurface_m_surface w (some h2), ?_, ?_, ?_⟩
  · simp [List.count_append, List.count_cons, cD, cA, Effect.isAttachTail, hne, hne2]
  · simp [List.count_append, List.count_cons, cD, cA, Effect.isAttachTail, hne, hne2]
  · simp [List.count_append, List.count_cons, cD, cA, Effect.isAttachTail, hne, hne2]
  · simp
  · simp
  · intro hl2
    simp [hl2]

/-- Witness for C6 (amended): Scenario A on live surfaces 1 and 2. -/
theorem replace_surface_witness :
    (1 : HandleId) ≠ 2 ∧ liveAttachedWorld.item.m_surface = some 1 ∧
      (liveAttachedWorld.surfaces 1).live = true ∧
      liveAttachedWorld.item.hasActiveFocus = true ∧
      liveAttachedWorld.item.m_consumesInput = true ∧
      (effectsSince liveAttachedWorld (setSurface liveAttachedWorld (some 2))).count
        (Effect.call 1 (SurfaceCall.setFocus false)) = 1 ∧
      (effectsSince liveAttachedWorld (setSurface liveAttachedWorld (some 2))).count
        (Effect.call 1 SurfaceCall.decrementViewCount) = 1 ∧
      (effectsSince liveAttachedWorld (setSurface liveAttachedWorld (some 2))).count
        (Effect.call 2 SurfaceCall.incrementViewCount) = 1 ∧
      ((setSurface liveAttachedWorld (some 2)).surfaces 1).viewCount =
        (liveAttachedWorld.surfaces 1).viewCount - 1 ∧
      ((setSurface liveAttachedWorld (some 2)).surfaces 2).viewCount =
        (liveAttachedWorld.surfaces 2).viewCount + 1 ∧
      (setSurface liveAttachedWorld (some 2)).item.m_surface = some 2 ∧
      Effect.emit (Signal.typeChanged (liveAttachedWorld.surfaces 2).type) ∈
        effectsSince liveAttachedWorld (setSurface liveAttachedWorld (some 2)) ∧
      Effect.emit (Signal.surfaceStateChanged (liveAttachedWorld.surfaces 2).state) ∈
        effectsSince liveAttachedWorld (setSurface liveAttachedWorld (some 2)) ∧
      ((liveAttachedWorld.surfaces 2).live = true →
        Effect.emit (Signal.liveChanged (liveAttachedWorld.surfaces 2).live) ∈
          effectsSince liveAttachedWorld (setSurface liveAttachedWorld (some 2))) :=
  ⟨by decide, rfl, rfl, rfl, rfl,
    replace_surface liveAttachedWorld 1 2 (by decide) rfl rfl rfl rfl⟩

/-- C7 fails on the code: `setSurface` on an item that consumes input pushes the focus state
to the new surface without looking at its live flag, so the dead surface 1 receives a
`setFocus` call. -/
theorem setSurface_focuses_dead_surface :
    consumingWorld.item.m_surface = none ∧
      consumingWorld.item.m_consumesInput = true ∧
      (consumingWorld.surfaces 1).live = false ∧
      effectsSince consumingWorld (setSurface consumingWorld (some 1)) =
        [Effect.call 1 SurfaceCall.incrementViewCount,
          Effect.connect 1 SurfaceSignal.framesPosted,
          Effect.connect 1 SurfaceSignal.stateChanged,
          Effect.connect 1 SurfaceSignal.liveChanged,
          Effect.connect 1 SurfaceSignal.sizeChanged,
          Effect.connectFrameSwapped 1,
          Effect.emit (Signal.typeChanged MirType.NormalType),
          Effect.emit (Signal.liveChanged true),
          Effect.emit (Signal.surfaceStateChanged MirState.RestoredState),
          Effect.connect 1 SurfaceSignal.orientationAngleChanged,
          Effect.emit (Signal.orientationAngleChanged OrientationAngle.Angle0),
          Effect.call 1 (SurfaceCall.setFocus false),
          Effect.update,
          Effect.emit (Signal.surfaceChanged (some 1))] := by
  refine ⟨by decide, by decide, by decide, by decide⟩

/-! ## The two loops of the repair -/

theorem removeReleased_eq (touchPoints : List TouchPoint) (i : Nat) :
    removeReleased touchPoints i = touchPoints.take i ++ notReleased (touchPoints.drop i) := by
  induction touchPoints, i using removeReleased.induct with
  | case1 pts i h hrel ih =>
    rw [removeReleased]
    simp only [h, hrel, dif_pos, if_true]
    rw [ih, List.eraseIdx_eq_take_drop_succ]
    have hlen : (List.take i pts).length = i := by
      rw [List.length_take]
      omega
    rw [List.take_left' hlen, List.drop_left' hlen]
    congr 1
    simp only [List.get_eq_getElem] at hrel
    have hd := List.drop_eq_getElem_cons h
    rw [hd, notReleased, notReleased, List.filter_cons]
    rw [if_neg (by simp [hrel])]
  | case2 pts i h hrel ih =>
    rw [removeReleased]
    simp only [h, hrel, dif_pos, if_false]
    rw [ih]
    simp only [List.get_eq_getElem] at hrel
    have hd := List.drop_eq_getElem_cons h
    rw [hd, notReleased, notReleased, List.filter_cons]
    rw [if_pos (by simp [hrel]), List.take_succ, List.getElem?_eq_getElem h]
    simp only [Option.toList_some, List.append_assoc, List.singleton_append]
  | case3 pts i h =>
    rw [removeReleased]
    simp only [h, dif_neg, not_false_eq_true]
    have : pts.length ≤ i := by omega
    simp [List.take_of_length_le this, List.drop_eq_nil_of_le this, notReleased]

theorem removeReleased_zero (touchPoints : List TouchPoint) :
    removeReleased touchPoints 0 = notReleased touchPoints := by
  rw [removeReleased_eq]
  simp

theorem syntheticBatches_length (mods ts : Nat) (h : HandleId) (pts : List TouchPoint) :
    (syntheticBatches mods ts h pts).length = pts.length := by
  induction pts with
  | nil => rfl
  | cons p rest ih => simp [syntheticBatches, ih]

theorem syntheticBatches_eq_map (mods ts : Nat) (h : HandleId) (pts : List TouchPoint) :
    syntheticBatches mods ts h pts = (List.range pts.length).map fun i =>
      Effect.call h (SurfaceCall.touchEvent mods (releaseFirst (pts.drop i))
        (orStates 0 (releaseFirst (pts.drop i))) ts) := by
  induction pts with
  | nil => rfl
  | cons p rest ih =>
    rw [syntheticBatches, ih, List.length_cons, List.range_succ_eq_map, List.map_cons,
      List.map_map]
    rfl

theorem updateTouchPointStatesAndType_modifiers (e : TouchEvent) :
    e.updateTouchPointStatesAndType.modifiers = e.modifiers := rfl

theorem updateTouchPointStatesAndType_timestamp (e : TouchEvent) :
    e.updateTouchPointStatesAndType.timestamp = e.timestamp := rfl

theorem releaseOneByOne_spec (h : HandleId) (pts : List TouchPoint) :
    ∀ (ev : TouchEvent) (w : World), w.item.m_surface = some h →
      ∃ w1, releaseOneByOne ev pts w = some w1 ∧
        w1.trace = w.trace ++ syntheticBatches ev.modifiers ev.timestamp h pts ∧
        (pts = [] → w1 = w) ∧
        (pts ≠ [] → ∃ last, w1.item.m_lastTouchEvent = some last ∧ last.type = TouchEnd) := by
  induction pts with
  | nil =>
    intro ev w _
    exact ⟨w, rfl, by simp [syntheticBatches], fun _ => rfl, fun c => absurd rfl c⟩
  | cons p rest ih =>
    intro ev w hs
    simp only [releaseOneByOne, hs]
    obtain ⟨w1, h1, h2, h3, h4⟩ := ih
      ({ ev with touchPoints := p.setState TouchPointState.TouchPointReleased :: rest
        }).updateTouchPointStatesAndType
      ((w.call h (SurfaceCall.touchEvent ev.modifiers
        (p.setState TouchPointState.TouchPointReleased :: rest)
        (orStates 0 (p.setState TouchPointState.TouchPointReleased :: rest)) ev.timestamp)).setItem
        { w.item with m_lastTouchEvent := some ({ ev with
            touchPoints := p.setState TouchPointState.TouchPointReleased :: rest
            }).updateTouchPointStatesAndType }) hs
    refine ⟨w1, h1, ?_, fun c => absurd c (by simp), fun _ => ?_⟩
    · rw [h2]
      simp [syntheticBatches, releaseFirst, TouchEvent.updateTouchPointStatesAndType]
    · cases rest with
      | nil =>
        rw [h3 rfl]
        exact ⟨_, rfl, by
          simp [TouchEvent.updateTouchPointStatesAndType, orStates, typeOfStates,
            TouchPoint.setState, TouchPointState.toFlag]⟩
      | cons q rest2 => exact h4 (by simp)

theorem endCurrentTouchSequence_spec (w : World) (h : HandleId) (last : TouchEvent) (ts : Nat)
    (hs : w.item.m_surface = some h) (hl : w.item.m_lastTouchEvent = some last)
    (hne : last.type ≠ TouchEnd) (hpts : last.touchPoints ≠ []) :
    ∃ w1, endCurrentTouchSequence w ts = some w1 ∧
      w1.trace = w.trace ++ syntheticBatches last.modifiers ts h (notReleased last.touchPoints) ∧
      (notReleased last.touchPoints = [] → w1 = w) ∧
      (notReleased last.touchPoints ≠ [] →
        ∃ e, w1.item.m_lastTouchEvent = some e ∧ e.type = TouchEnd) := by
  have hlen : ¬ last.touchPoints.length = 0 := by
    rw [List.length_eq_zero]
    exact hpts
  unfold endCurrentTouchSequence
  simp only [hl, hne, hlen, if_false, removeReleased_zero]
  exact releaseOneByOne_spec h (notReleased last.touchPoints) _ w hs

theorem releaseFirst_released (pts : List TouchPoint) (hne : pts ≠ [])
    (hall : ∀ p ∈ pts, p.state ≠ TouchPointState.TouchPointReleased) :
    ((releaseFirst pts).filter fun p =>
      decide (p.state = TouchPointState.TouchPointReleased)).length = 1 := by
  cases pts with
  | nil => exact absurd rfl hne
  | cons p rest =>
    have hrest : rest.filter (fun p => decide (p.state = TouchPointState.TouchPointReleased))
        = [] := by
      rw [List.filter_eq_nil_iff]
      intro q hq
      simpa using hall q (List.mem_cons_of_mem p hq)
    simp [releaseFirst, TouchPoint.setState, List.filter_cons, hrest]

theorem notReleased_drop_all (pts : List TouchPoint) (i : Nat) :
    ∀ p ∈ (notReleased pts).drop i, p.state ≠ TouchPointState.TouchPointReleased := by
  intro p hp
  have hm := List.mem_of_mem_drop hp
  simpa [notReleased] using (List.mem_filter.mp hm).2

/-- C2: when the last delivered batch has `k ≥ 1` points that are not released,
`endCurrentTouchSequence` succeeds and its effects are exactly `k` `touchEvent` calls on the
attached surface; the `i`-th carries the unreleased points from the `i`-th onward, in order,
with the first of them set to Released and the others as they were, so each of these batches
holds exactly one released point. -/
theorem endCurrentTouchSequence_one_release_per_batch (w : World) (h : HandleId)
    (last : TouchEvent) (ts : Nat)
    (hs : w.item.m_surface = some h) (hl : w.item.m_lastTouchEvent = some last)
    (hne : last.type ≠ TouchEnd) (hk : 1 ≤ (notReleased last.touchPoints).length) :
    ∃ w1, endCurrentTouchSequence w ts = some w1 ∧
      effectsSince w w1 = (List.range (notReleased last.touchPoints).length).map (fun i =>
        Effect.call h (SurfaceCall.touchEvent last.modifiers
          (releaseFirst ((notReleased last.touchPoints).drop i))
          (orStates 0 (releaseFirst ((notReleased last.touchPoints).drop i))) ts)) ∧
      (effectsSince w w1).length = (notReleased last.touchPoints).length ∧
      ∀ i, i < (notReleased last.touchPoints).length →
        ((releaseFirst ((notReleased last.touchPoints).drop i)).filter fun p =>
          decide (p.state = TouchPointState.TouchPointReleased)).length = 1 := by
  have hpts : last.touchPoints ≠ [] := by
    intro c
    rw [c] at hk
    simp [notReleased] at hk
  obtain ⟨w1, h1, h2, _, _⟩ := endCurrentTouchSequence_spec w h last ts hs hl hne hpts
  have heff := effectsSince_append w w1 _ h2
  refine ⟨w1, h1, ?_, ?_, ?_⟩
  · rw [heff, syntheticBatches_eq_map]
  · rw [heff, syntheticBatches_length]
  · intro i hi
    apply releaseFirst_released
    · intro c
      have := congrArg List.length c
      simp at this
      omega
    · exact notReleased_drop_all last.touchPoints i

/-! ## A Begin on an open sequence -/

theorem scenarioC_opening :
    (processTouchEvents exampleKeyboard touchWorld [beginPt1, updatePt1Pt2]).map
      (fun r => (r.1.item, r.1.trace, r.2)) =
      some (openSequenceWorld.item, openSequenceWorld.trace, [true, true]) := by
  decide

theorem deliverAndRecord_spec (w : World) (h : HandleId) (b : TouchBatch)
    (hs : w.item.m_surface = some h) :
    ∃ w1, deliverAndRecord w b = some w1 ∧
      w1.trace = w.trace ++
        [Effect.call h (SurfaceCall.touchEvent b.mods b.touchPoints b.touchPointStates
          b.timestamp)] ∧
      ∃ e, w1.item.m_lastTouchEvent = some e ∧ e.type = b.eventType ∧
        e.timestamp = b.timestamp ∧ e.touchPoints = b.touchPoints ∧
        e.touchPointStates = b.touchPointStates := by
  unfold deliverAndRecord
  simp only [hs]
  exact ⟨_, rfl, rfl, _, rfl, rfl, rfl, rfl, rfl⟩

/-- C3 as stated fails: the recorded batch is an Update whose only point is released; a Begin
then runs the repair, which delivers nothing and leaves the recorded kind at Update, and the
Begin is forwarded on its own. -/
theorem begin_on_open_sequence_counterexample :
    (processTouchEvents exampleKeyboard touchWorld [beginPt1, updateReleasedPt1]).map
        (fun r => (r.1.item, r.1.trace, r.2)) =
        some (releasedUpdateWorld.item, releasedUpdateWorld.trace, [true, true]) ∧
      releasedUpdateWorld.item.m_lastTouchEvent =
        some (TouchEvent.mk TouchUpdate 2 0 [pt1Released] 8) ∧
      needsRepair releasedUpdateWorld beginPt3.eventType = true ∧
      endCurrentTouchSequence releasedUpdateWorld beginPt3.timestamp =
        some releasedUpdateWorld ∧
      (releasedUpdateWorld.item.m_lastTouchEvent.map fun e => e.type) = some TouchUpdate ∧
      (validateAndDeliverTouchEvent releasedUpdateWorld beginPt3).map
        (fun w => effectsSince releasedUpdateWorld w) =
        some [Effect.call 1 (SurfaceCall.touchEvent 0 [pt3Pressed] 1 3)] := by
  have hend : endCurrentTouchSequence releasedUpdateWorld beginPt3.timestamp =
      some releasedUpdateWorld := by
    obtain ⟨w1, h1, _, h3, _⟩ := endCurrentTouchSequence_spec releasedUpdateWorld 1
      (TouchEvent.mk TouchUpdate 2 0 [pt1Released] 8) beginPt3.timestamp rfl rfl
      (by decide) (by decide)
    rw [h1, h3 (by decide)]
  refine ⟨by decide, rfl, by decide, hend, by decide, ?_⟩
  have hrep : needsRepair releasedUpdateWorld beginPt3.eventType = true := by decide
  simp only [validateAndDeliverTouchEvent, hrep, if_true, hend, Option.some_bind]
  decide

theorem validateAndDeliverTouchEvent_repair (w : World) (h : HandleId) (last : TouchEvent)
    (b : TouchBatch)
    (hs : w.item.m_surface = some h) (hl : w.item.m_lastTouchEvent = some last)
    (hne : last.type ≠ TouchEnd) (hb : b.eventType = TouchBegin)
    (hk : 1 ≤ (notReleased last.touchPoints).length) :
    ∃ w1 w2, endCurrentTouchSequence w b.timestamp = some w1 ∧
      validateAndDeliverTouchEvent w b = deliverAndRecord w1 b ∧
      validateAndDeliverTouchEvent w b = some w2 ∧
      (∃ e, w1.item.m_lastTouchEvent = some e ∧ e.type = TouchEnd) ∧
      w1.trace = w.trace ++
        syntheticBatches last.modifiers b.timestamp h (notReleased last.touchPoints) ∧
      w2.trace = w1.trace ++
        [Effect.call h (SurfaceCall.touchEvent b.mods b.touchPoints b.touchPointStates
          b.timestamp)] ∧
      ∃ e, w2.item.m_lastTouchEvent = some e ∧ e.type = b.eventType ∧
        e.timestamp = b.timestamp ∧ e.touchPoints = b.touchPoints ∧
        e.touchPointStates = b.touchPointStates := by
  have hpts : last.touchPoints ≠ [] := by
    intro c
    rw [c] at hk
    simp [notReleased] at hk
  have hnr : notReleased last.touchPoints ≠ [] := by
    intro c
    rw [c] at hk
    simp at hk
  obtain ⟨w1, h1, h2, _, h4⟩ := endCurrentTouchSequence_spec w h last b.timestamp hs hl hne hpts
  have hs1 : w1.item.m_surface = some h := by
    rw [(endCurrentTouchSequence_frame w w1 b.timestamp h1).1]
    exact hs
  obtain ⟨w2, g1, g2, g3⟩ := deliverAndRecord_spec w1 h b hs1
  have hrep : needsRepair w b.eventType = true := by
    simp [needsRepair, hl, hb, hne]
  have hval : validateAndDeliverTouchEvent w b = deliverAndRecord w1 b := by
    simp only [validateAndDeliverTouchEvent, hrep, if_true, h1, Option.some_bind]
  exact ⟨w1, w2, h1, hval, by rw [hval, g1], h4 hnr, h2, g2, g3⟩

/-- C3 (amended): when `validateAndDeliverTouchEvent` is called with a Begin while the
recorded batch is not an End and has at least one point that is not released, the repair
`endCurrentTouchSequence` runs once and succeeds, the recorded kind is End when it finishes,
and the effects of the whole call are the synthetic batches of the repair, one per unreleased
point, followed by the new Begin batch, which is then the recorded one. -/
theorem begin_on_open_sequence (w : World) (h : HandleId) (last : TouchEvent) (b : TouchBatch)
    (hs : w.item.m_surface = some h) (hl : w.item.m_lastTouchEvent = some last)
    (hne : last.type ≠ TouchEnd) (hb : b.eventType = TouchBegin)
    (hk : 1 ≤ (notReleased last.touchPoints).length) :
    ∃ w1 w2, endCurrentTouchSequence w b.timestamp = some w1 ∧
      validateAndDeliverTouchEvent w b = deliverAndRecord w1 b ∧
      validateAndDeliverTouchEvent w b = some w2 ∧
      (w1.item.m_lastTouchEvent.map fun e => e.type) = some TouchEnd ∧
      effectsSince w w1 =
        syntheticBatches last.modifiers b.timestamp h (notReleased last.touchPoints) ∧
      (effectsSince w w1).length = (notReleased last.touchPoints).length ∧
      effectsSince w w2 = effectsSince w w1 ++
        [Effect.call h (SurfaceCall.touchEvent b.mods b.touchPoints b.touchPointStates
          b.timestamp)] ∧
      (w2.item.m_lastTouchEvent.map fun e => e.type) = some TouchBegin := by
  obtain ⟨w1, w2, a1, a2, a3, ⟨e1, he1, hty1⟩, a5, a6, e2, he2, hty2, _⟩ :=
    validateAndDeliverTouchEvent_repair w h last b hs hl hne hb hk
  have heff := effectsSince_append w w1 _ a5
  refine ⟨w1, w2, a1, a2, a3, by rw [he1, Option.map_some', hty1], heff, ?_, ?_,
    by rw [he2, Option.map_some', hty2, hb]⟩
  · rw [heff, syntheticBatches_length]
  · rw [heff]
    apply effectsSince_append
    rw [a6, a5, List.append_assoc]

/-- Witness for C3 (amended): Scenario C, the Begin(pt3 pressed) arriving on the open sequence
of `openSequenceWorld`. -/
theorem begin_on_open_sequence_witness :
    openSequenceWorld.item.m_surface = some 1 ∧
      openSequenceWorld.item.m_lastTouchEvent =
        some (TouchEvent.mk TouchUpdate 2 0 [pt1Moved, pt2Pressed] 3) ∧
      TouchUpdate ≠ TouchEnd ∧ beginPt3.eventType = TouchBegin ∧
      1 ≤ (notReleased [pt1Moved, pt2Pressed]).length ∧
      ∃ w1 w2, endCurrentTouchSequence openSequenceWorld 3 = some w1 ∧
        validateAndDeliverTouchEvent openSequenceWorld beginPt3 = deliverAndRecord w1 beginPt3 ∧
        validateAndDeliverTouchEvent openSequenceWorld beginPt3 = some w2 ∧
        (w1.item.m_lastTouchEvent.map fun e => e.type) = some TouchEnd ∧
        effectsSince openSequenceWorld w1 =
          syntheticBatches 0 3 1 (notReleased [pt1Moved, pt2Pressed]) ∧
        (effectsSince openSequenceWorld w1).length = 2 ∧
        effectsSince openSequenceWorld w2 = effectsSince openSequenceWorld w1 ++
          [Effect.call 1 (SurfaceCall.touchEvent 0 [pt3Pressed] 1 3)] ∧
        (w2.item.m_lastTouchEvent.map fun e => e.type) = some TouchBegin :=
  ⟨rfl, rfl, by decide, rfl, by decide,
    begin_on_open_sequence openSequenceWorld 1
      (TouchEvent.mk TouchUpdate 2 0 [pt1Moved, pt2Pressed] 3) beginPt3 rfl rfl (by decide) rfl
      (by decide)⟩

/-! ## The gate of `processTouchEvent` -/

theorem hasTouchInsideUbuntuKeyboard_iff (kb : UbuntuKeyboardInfo) (pts : List TouchPoint) :
    hasTouchInsideUbuntuKeyboard kb pts = true ↔
      ∃ p ∈ pts, kb.x ≤ p.x ∧ p.x ≤ kb.x + kb.width ∧ kb.y ≤ p.y ∧ p.y ≤ kb.y + kb.height := by
  induction pts with
  | nil => simp [hasTouchInsideUbuntuKeyboard]
  | cons p ps ih =>
    simp only [hasTouchInsideUbuntuKeyboard, List.mem_cons, exists_eq_or_imp]
    split
    · next hin =>
      simp only [Bool.and_eq_true, decide_eq_true_eq, ge_iff_le] at hin
      simp only [true_iff]
      exact Or.inl ⟨hin.1.1.1, hin.1.1.2, hin.1.2, hin.2⟩
    · next hout =>
      simp only [Bool.and_eq_true, decide_eq_true_eq, ge_iff_le] at hout
      rw [ih]
      constructor
      · exact fun hx => Or.inr hx
      · rintro (⟨a, b, c, d⟩ | hx)
        · exact absurd ⟨⟨⟨a, b⟩, c⟩, d⟩ hout
        · exact hx

theorem processTouchEvent_forward (kb : UbuntuKeyboardInfo) (w : World) (h : HandleId)
    (b : TouchBatch) (hc : w.item.m_consumesInput = true) (hs : w.item.m_surface = some h)
    (hl : (w.surfaces h).live = true)
    (hg : (type w = MirType.InputMethodType ∧ b.eventType = TouchBegin) →
      hasTouchInsideUbuntuKeyboard kb b.touchPoints = true) :
    processTouchEvent kb w b = (validateAndDeliverTouchEvent w b).map fun w1 => (w1, true) := by
  unfold processTouchEvent
  simp only [hs, hc, hl, Bool.not_true, Bool.or_self, Bool.false_eq_true, if_false]
  split
  · next him => rw [if_pos (hg him)]
  · rfl

theorem processTouchEvent_rejects (kb : UbuntuKeyboardInfo) (w : World) (b : TouchBatch) :
    (∃ w1, processTouchEvent kb w b = some (w1, false)) ↔
      (w.item.m_consumesInput = false ∨ w.item.m_surface = none ∨ live w = false ∨
        (type w = MirType.InputMethodType ∧ b.eventType = TouchBegin ∧
          hasTouchInsideUbuntuKeyboard kb b.touchPoints = false)) := by
  unfold processTouchEvent
  cases hs : w.item.m_surface with
  | none => simp
  | some h =>
    simp only [live, hs]
    cases hc : w.item.m_consumesInput with
    | false => simp
    | true =>
      cases hl : (w.surfaces h).live with
      | false => simp
      | true =>
        simp only [Bool.not_true, Bool.or_self, Bool.false_eq_true, if_false, false_or]
        split
        · next him =>
          cases hk : hasTouchInsideUbuntuKeyboard kb b.touchPoints with
          | true => simp [Option.map_eq_some']
          | false => simp [him]
        · next hnim =>
          simp only [Option.map_eq_some', Prod.mk.injEq, Bool.true_eq_false, and_false,
            exists_false, reduceCtorEq, false_iff, not_or, not_and]
          simp only [not_and] at hnim
          exact ⟨by simp, by simp, by simp, fun a b' => absurd b' (hnim a)⟩

theorem processTouchEvent_rejected_same (kb : UbuntuKeyboardInfo) (w w1 : World)
    (b : TouchBatch) (h : processTouchEvent kb w b = some (w1, false)) : w1 = w := by
  unfold processTouchEvent at h
  split at h
  · simp only [Option.some.injEq, Prod.mk.injEq] at h
    exact h.1.symm
  · split at h
    · simp only [Option.some.injEq, Prod.mk.injEq] at h
      exact h.1.symm
    · split at h
      · split at h
        · simp [Option.map_eq_some'] at h
        · simp only [Option.some.injEq, Prod.mk.injEq] at h
          exact h.1.symm
      · simp [Option.map_eq_some'] at h

theorem validateAndDeliverTouchEvent_no_repair (w : World) (b : TouchBatch)
    (hb : b.eventType ≠ TouchBegin) :
    validateAndDeliverTouchEvent w b = deliverAndRecord w b := by
  have hrep : needsRepair w b.eventType = false := by
    unfold needsRepair
    split <;> simp [hb]
  simp [validateAndDeliverTouchEvent, hrep]

/-- Witness for C2 (Scenario C): after Begin(pt1 pressed) and Update(pt1 moved, pt2 pressed)
the item is in `openSequenceWorld`; ending the sequence there delivers exactly two synthetic
batches, the first releasing pt1 and the second pt2, and Begin(pt3 pressed) arriving there
makes the surface receive those two batches and then the Begin. -/
theorem endCurrentTouchSequence_one_release_per_batch_witness :
    (processTouchEvents exampleKeyboard touchWorld [beginPt1, updatePt1Pt2]).map
        (fun r => (r.1.item, r.1.trace, r.2)) =
        some (openSequenceWorld.item, openSequenceWorld.trace, [true, true]) ∧
      openSequenceWorld.item.m_surface = some 1 ∧
      openSequenceWorld.item.m_lastTouchEvent =
        some (TouchEvent.mk TouchUpdate 2 0 [pt1Moved, pt2Pressed] 3) ∧
      TouchUpdate ≠ TouchEnd ∧
      1 ≤ (notReleased [pt1Moved, pt2Pressed]).length ∧
      (∃ w1, endCurrentTouchSequence openSequenceWorld 3 = some w1 ∧
        effectsSince openSequenceWorld w1 =
          [Effect.call 1 (SurfaceCall.touchEvent 0
              [pt1Moved.setState TouchPointState.TouchPointReleased, pt2Pressed] 9 3),
            Effect.call 1 (SurfaceCall.touchEvent 0
              [pt2Pressed.setState TouchPointState.TouchPointReleased] 8 3)] ∧
        (effectsSince openSequenceWorld w1).length = 2) ∧
      ∃ w2, processTouchEvent exampleKeyboard openSequenceWorld beginPt3 = some (w2, true) ∧
        effectsSince openSequenceWorld w2 =
          [Effect.call 1 (SurfaceCall.touchEvent 0
              [pt1Moved.setState TouchPointState.TouchPointReleased, pt2Pressed] 9 3),
            Effect.call 1 (SurfaceCall.touchEvent 0
              [pt2Pressed.setState TouchPointState.TouchPointReleased] 8 3),
            Effect.call 1 (SurfaceCall.touchEvent 0 [pt3Pressed] 1 3)] := by
  refine ⟨scenarioC_opening, rfl, rfl, by decide, by decide, ?_, ?_⟩
  · obtain ⟨w1, h1, h2, h3, _⟩ := endCurrentTouchSequence_one_release_per_batch
      openSequenceWorld 1 (TouchEvent.mk TouchUpdate 2 0 [pt1Moved, pt2Pressed] 3) 3 rfl rfl
      (by decide) (by decide)
    exact ⟨w1, h1, by rw [h2]; decide, by rw [h3]; decide⟩
  · obtain ⟨w1, w2, _, _, a3, _, a5, a6, _⟩ := validateAndDeliverTouchEvent_repair
      openSequenceWorld 1 (TouchEvent.mk TouchUpdate 2 0 [pt1Moved, pt2Pressed] 3) beginPt3
      rfl rfl (by decide) rfl (by decide)
    refine ⟨w2, ?_, ?_⟩
    · rw [processTouchEvent_forward exampleKeyboard openSequenceWorld 1 beginPt3 rfl rfl rfl
        (fun c => absurd c.1 (by decide)), a3]
      rfl
    · apply effectsSince_append
      rw [a6, a5, List.append_assoc]
      rfl

/-- C4: `processTouchEvent` returns false exactly when input consumption is off, or no surface
is attached, or the surface is not live, or the surface is of the input-method kind and the
batch is a Begin with no point inside the keyboard rectangle; when it returns false the world
is as before (nothing forwarded, recorded touch state unchanged); and on a live surface of any
kind, the input-method kind included, with input consumption on, every Update or End batch is
forwarded as it is, recorded and accepted, whatever batch was recorded before. -/
theorem processTouchEvent_gate (kb : UbuntuKeyboardInfo) (w : World) (b : TouchBatch) :
    ((∃ w1, processTouchEvent kb w b = some (w1, false)) ↔
      (w.item.m_consumesInput = false ∨ w.item.m_surface = none ∨ live w = false ∨
        (type w = MirType.InputMethodType ∧ b.eventType = TouchBegin ∧
          ¬ ∃ p ∈ b.touchPoints,
            kb.x ≤ p.x ∧ p.x ≤ kb.x + kb.width ∧ kb.y ≤ p.y ∧ p.y ≤ kb.y + kb.height))) ∧
      (∀ w1, processTouchEvent kb w b = some (w1, false) → w1 = w) ∧
      (∀ h, w.item.m_consumesInput = true → w.item.m_surface = some h →
        (w.surfaces h).live = true → (b.eventType = TouchUpdate ∨ b.eventType = TouchEnd) →
        ∃ w1, processTouchEvent kb w b = some (w1, true) ∧
          effectsSince w w1 = [Effect.call h (SurfaceCall.touchEvent b.mods b.touchPoints
            b.touchPointStates b.timestamp)] ∧
          ∃ e, w1.item.m_lastTouchEvent = some e ∧ e.type = b.eventType ∧
            e.timestamp = b.timestamp ∧ e.touchPoints = b.touchPoints ∧
            e.touchPointStates = b.touchPointStates) := by
  refine ⟨?_, fun w1 h => processTouchEvent_rejected_same kb w w1 b h, ?_⟩
  · rw [processTouchEvent_rejects, ← hasTouchInsideUbuntuKeyboard_iff]
    simp only [Bool.not_eq_true]
  · intro h hc hs hl hb
    have hnb : b.eventType ≠ TouchBegin := by
      rcases hb with hb | hb <;> rw [hb] <;> decide
    obtain ⟨w1, g1, g2, g3⟩ := deliverAndRecord_spec w h b hs
    refine ⟨w1, ?_, effectsSince_append w w1 _ g2, g3⟩
    rw [processTouchEvent_forward kb w h b hc hs hl (fun c => absurd c.2 hnb),
      validateAndDeliverTouchEvent_no_repair w b hnb, g1]
    rfl

/-- Witness for C4 (Scenario D): on the input-method surface a Begin outside the keyboard is
rejected, and an Update outside the keyboard is nevertheless forwarded and accepted. -/
theorem processTouchEvent_gate_witness :
    (∃ w1, processTouchEvent exampleKeyboard inputMethodWorld beginPt3 = some (w1, false)) ∧
      ∃ w1, processTouchEvent exampleKeyboard inputMethodWorld updatePt3 = some (w1, true) ∧
        effectsSince inputMethodWorld w1 =
          [Effect.call 1 (SurfaceCall.touchEvent 0 [pt3Moved] 2 4)] ∧
        ∃ e, w1.item.m_lastTouchEvent = some e ∧ e.type = TouchUpdate ∧
          e.timestamp = 4 ∧ e.touchPoints = [pt3Moved] ∧ e.touchPointStates = 2 :=
  ⟨(processTouchEvent_gate exampleKeyboard inputMethodWorld beginPt3).1.mpr
      (Or.inr (Or.inr (Or.inr ⟨rfl, rfl, by decide⟩))),
    (processTouchEvent_gate exampleKeyboard inputMethodWorld updatePt3).2.2 1 rfl rfl rfl
      (Or.inl rfl)⟩

/-! ## Aggregates of touch point states -/

theorem orStates_lor (ps : List TouchPoint) :
    ∀ acc : Nat, orStates acc ps = acc ||| orStates 0 ps := by
  induction ps with
  | nil => intro acc; simp [orStates]
  | cons p ps ih =>
    intro acc
    simp only [orStates]
    rw [ih (acc ||| p.state.toFlag), ih (0 ||| p.state.toFlag), Nat.zero_or, Nat.lor_assoc]

theorem orStates_all_released (ps : List TouchPoint)
    (hall : ∀ p ∈ ps, p.state = TouchPointState.TouchPointReleased) :
    orStates 8 ps = 8 := by
  induction ps with
  | nil => rfl
  | cons p ps ih =>
    simp only [orStates]
    rw [hall p (List.mem_cons_self p ps)]
    exact ih fun q hq => hall q (List.mem_cons_of_mem p hq)

theorem toFlag_low_bit (s : TouchPointState) (hs : s ≠ TouchPointState.TouchPointReleased) :
    ∃ i, i < 3 ∧ s.toFlag.testBit i = true := by
  cases s with
  | TouchPointPressed => exact ⟨0, by decide, by decide⟩
  | TouchPointMoved => exact ⟨1, by decide, by decide⟩
  | TouchPointStationary => exact ⟨2, by decide, by decide⟩
  | TouchPointReleased => exact absurd rfl hs

theorem orStates_low_bit (ps : List TouchPoint) (p : TouchPoint) (hp : p ∈ ps)
    (hs : p.state ≠ TouchPointState.TouchPointReleased) :
    ∃ i, i < 3 ∧ (orStates 0 ps).testBit i = true := by
  induction ps with
  | nil => simp at hp
  | cons q ps ih =>
    simp only [orStates]
    rw [orStates_lor, Nat.zero_or]
    rcases List.mem_cons.mp hp with rfl | hmem
    · obtain ⟨i, hi, hb⟩ := toFlag_low_bit p.state hs
      exact ⟨i, hi, by rw [Nat.testBit_lor, hb, Bool.true_or]⟩
    · obtain ⟨i, hi, hb⟩ := ih hmem
      exact ⟨i, hi, by rw [Nat.testBit_lor, hb, Bool.or_true]⟩

theorem eight_low_bits (i : Nat) (hi : i < 3) : Nat.testBit 8 i = false := by
  interval_cases i <;> decide

theorem orStates_ne_released (ps : List TouchPoint) (p : TouchPoint) (hp : p ∈ ps)
    (hs : p.state ≠ TouchPointState.TouchPointReleased) (acc : Nat) :
    orStates acc ps ≠ 8 := by
  obtain ⟨i, hi, hb⟩ := orStates_low_bit ps p hp hs
  intro c
  have h8 := eight_low_bits i hi
  rw [← c, orStates_lor, Nat.testBit_lor, hb, Bool.or_true] at h8
  exact absurd h8 (by simp)

theorem orStates_released_ne_pressed (ps : List TouchPoint) : orStates 8 ps ≠ 1 := by
  intro c
  have h1 : Nat.testBit 1 3 = false := by decide
  rw [← c, orStates_lor, Nat.testBit_lor] at h1
  have h8 : Nat.testBit 8 3 = true := by decide
  rw [h8, Bool.true_or] at h1
  exact absurd h1 (by simp)

/-! ## Legality of the batches a surface receives -/

theorem received_append (h : HandleId) (a b : List Effect) :
    received h (a ++ b) = received h a ++ received h b := by
  induction a with
  | nil => rfl
  | cons e es ih =>
    cases e with
    | call g c =>
      cases c with
      | touchEvent m p st t =>
        by_cases hg : g = h <;> simp [received, hg, ih]
      | _ => simpa [received] using ih
    | _ => simpa [received] using ih

theorem received_touchEvent (h : HandleId) (mods : Nat) (pts : List TouchPoint)
    (states ts : Nat) :
    received h [Effect.call h (SurfaceCall.touchEvent mods pts states ts)] = [(pts, states)] := by
  simp [received]

theorem legalRun_append (a b : List (List TouchPoint × Nat)) :
    ∀ o : Bool, legalRun o (a ++ b) = (legalRun o a).bind fun o1 => legalRun o1 b := by
  induction a with
  | nil => intro o; simp [legalRun]
  | cons x xs ih =>
    intro o
    obtain ⟨pts, states⟩ := x
    cases o with
    | false =>
      simp only [List.cons_append, legalRun]
      split
      · exact ih true
      · rfl
    | true =>
      simp only [List.cons_append, legalRun]
      split
      · exact ih false
      · split
        · exact ih true
        · rfl

theorem syntheticBatches_legal (mods ts : Nat) (h : HandleId) (ps : List TouchPoint) :
    ps ≠ [] → (∀ p ∈ ps, p.state ≠ TouchPointState.TouchPointReleased) →
      legalRun true (received h (syntheticBatches mods ts h ps)) = some false := by
  induction ps with
  | nil => exact fun c => absurd rfl c
  | cons p rest ih =>
    intro _ hall
    have hrest : ∀ q ∈ rest, q.state ≠ TouchPointState.TouchPointReleased :=
      fun q hq => hall q (List.mem_cons_of_mem p hq)
    have hstates : orStates 0 (releaseFirst (p :: rest)) = orStates 8 rest := by
      simp [releaseFirst, orStates, TouchPoint.setState, TouchPointState.toFlag]
    simp only [syntheticBatches, received, if_true, legalRun, hstates]
    cases rest with
    | nil =>
      simp [orStates, typeOfStates, TouchPointState.toFlag, syntheticBatches, received,
        legalRun]
    | cons q rest2 =>
      have h8 : orStates 8 (q :: rest2) ≠ 8 :=
        orStates_ne_released (q :: rest2) q (List.mem_cons_self q rest2)
          (hrest q (List.mem_cons_self q rest2)) 8
      have h1 : orStates 8 (q :: rest2) ≠ 1 := orStates_released_ne_pressed (q :: rest2)
      have hty : typeOfStates (orStates 8 (q :: rest2)) = TouchUpdate := by
        simp [typeOfStates, TouchPointState.toFlag, h8, h1]
      rw [hty]
      simp only [show TouchUpdate ≠ TouchEnd by decide, if_false, releaseFirst, ne_eq,
        reduceCtorEq, not_false_eq_true, and_self, if_true]
      exact ih (by simp) hrest

theorem wellFormedBatch_iff (b : TouchBatch) :
    wellFormedBatch b = true ↔
      b.touchPoints ≠ [] ∧ b.touchPointStates = orStates 0 b.touchPoints ∧
        b.eventType = typeOfStates b.touchPointStates := by
  simp [wellFormedBatch, and_assoc]

theorem notReleased_of_type_ne_end (pts : List TouchPoint) (hne : pts ≠ [])
    (hty : typeOfStates (orStates 0 pts) ≠ TouchEnd) : 1 ≤ (notReleased pts).length := by
  by_contra hlen
  have hnil : notReleased pts = [] := by
    rw [← List.length_eq_zero]
    omega
  have hall : ∀ p ∈ pts, p.state = TouchPointState.TouchPointReleased := by
    intro p hp
    have := (List.filter_eq_nil_iff.mp hnil) p hp
    simpa using this
  cases pts with
  | nil => exact hne rfl
  | cons p ps =>
    apply hty
    have h8 : orStates 0 (p :: ps) = 8 := by
      simp only [orStates]
      rw [hall p (List.mem_cons_self p ps)]
      exact orStates_all_released ps fun q hq => hall q (List.mem_cons_of_mem p hq)
    rw [h8]
    decide

theorem typeOfStates_cases (s : Nat) :
    typeOfStates s = TouchBegin ∨ typeOfStates s = TouchUpdate ∨ typeOfStates s = TouchEnd := by
  unfold typeOfStates
  split
  · exact Or.inr (Or.inr rfl)
  · split
    · exact Or.inl rfl
    · exact Or.inr (Or.inl rfl)

theorem processTouchEvent_step (kb : UbuntuKeyboardInfo) (w : World) (h : HandleId)
    (b : TouchBatch) (o im : Bool)
    (hc : w.item.m_consumesInput = true) (hs : w.item.m_surface = some h)
    (hl : (w.surfaces h).live = true)
    (him : type w = MirType.InputMethodType → im = true)
    (hst : sequenceState o w) (hwf : wellFormedBatch b = true)
    (hadm : if b.eventType = TouchBegin then
      (!im || hasTouchInsideUbuntuKeyboard kb b.touchPoints) = true else o = true) :
    ∃ w1 out, processTouchEvent kb w b = some (w1, true) ∧ w1.trace = w.trace ++ out ∧
      legalRun o (received h out) = some (decide (b.eventType ≠ TouchEnd)) ∧
      sequenceState (decide (b.eventType ≠ TouchEnd)) w1 := by
  obtain ⟨hpts, hstates, hty⟩ := (wellFormedBatch_iff b).mp hwf
  have hgate : (type w = MirType.InputMethodType ∧ b.eventType = TouchBegin) →
      hasTouchInsideUbuntuKeyboard kb b.touchPoints = true := by
    rintro ⟨ht, hb⟩
    rw [if_pos hb, him ht] at hadm
    simpa using hadm
  have hfwd := processTouchEvent_forward kb w h b hc hs hl hgate
  -- the state after a batch that is recorded as it is
  have hafter : ∀ w1 : World, (∃ e, w1.item.m_lastTouchEvent = some e ∧
      e.type = b.eventType ∧ e.timestamp = b.timestamp ∧ e.touchPoints = b.touchPoints ∧
      e.touchPointStates = b.touchPointStates) →
      sequenceState (decide (b.eventType ≠ TouchEnd)) w1 := by
    rintro w1 ⟨e, he, hety, _, hepts, _⟩
    unfold sequenceState
    by_cases hend : b.eventType = TouchEnd
    · simp only [hend, ne_eq, not_true_eq_false, decide_False, Bool.false_eq_true, if_false]
      intro e2 he2
      rw [he] at he2
      rw [← Option.some.inj he2, hety, hend]
    · simp only [ne_eq, hend, not_false_eq_true, decide_True, if_true]
      refine ⟨e, he, by rw [hety]; exact hend, ?_⟩
      rw [hepts]
      apply notReleased_of_type_ne_end b.touchPoints hpts
      rw [← hstates, ← hty]
      exact hend
  by_cases hb : b.eventType = TouchBegin
  · have hkind : typeOfStates b.touchPointStates = TouchBegin := by rw [← hty]; exact hb
    have hne : decide (b.eventType ≠ TouchEnd) = true := by
      rw [hb]
      decide
    cases o with
    | false =>
      have hrep : needsRepair w b.eventType = false := by
        unfold needsRepair
        split
        · next last hlast =>
          have := hst last hlast
          simp [this]
        · rfl
      obtain ⟨w1, g1, g2, g3⟩ := deliverAndRecord_spec w h b hs
      refine ⟨w1, _, ?_, g2, ?_, hafter w1 g3⟩
      · rw [hfwd]
        simp [validateAndDeliverTouchEvent, hrep, g1]
      · rw [received_touchEvent, hne]
        simp [legalRun, hkind, hpts]
    | true =>
      obtain ⟨last, hlast, hlne, hk⟩ := hst
      obtain ⟨w1, w2, r1, _, r3, _, r5, r7, g3⟩ :=
        validateAndDeliverTouchEvent_repair w h last b hs hlast hlne hb hk
      refine ⟨w2, _, ?_, by rw [r7, r5, List.append_assoc], ?_, hafter w2 g3⟩
      · rw [hfwd, r3]
        rfl
      · have hsyn := syntheticBatches_legal last.modifiers b.timestamp h
          (notReleased last.touchPoints) (by intro c; rw [c] at hk; simp at hk)
          (fun p hp => notReleased_drop_all last.touchPoints 0 p (by simpa using hp))
        rw [received_append, legalRun_append, hsyn, received_touchEvent, hne]
        simp [legalRun, hkind, hpts]
  · rw [if_neg hb] at hadm
    subst hadm
    obtain ⟨last, hlast, hlne, hk⟩ := hst
    obtain ⟨w1, g1, g2, g3⟩ := deliverAndRecord_spec w h b hs
    refine ⟨w1, _, ?_, g2, ?_, hafter w1 g3⟩
    · rw [hfwd, validateAndDeliverTouchEvent_no_repair w b hb, g1]
      rfl
    · rw [received_touchEvent]
      rcases typeOfStates_cases b.touchPointStates with hk1 | hk1 | hk1
      · exact absurd (hty.trans hk1) hb
      · have hne : decide (b.eventType ≠ TouchEnd) = true := by
          rw [hty, hk1]
          decide
        rw [hne]
        simp [legalRun, hk1, hpts, show TouchUpdate ≠ TouchEnd by decide]
      · have hne : decide (b.eventType ≠ TouchEnd) = false := by
          rw [hty, hk1]
          decide
        rw [hne]
        simp [legalRun, hk1]

theorem type_of_touchFrame {w w1 : World} (fr : touchFrame w w1) : type w1 = type w := by
  unfold type
  rw [fr.1, fr.2]

theorem processTouchEvents_grammar (kb : UbuntuKeyboardInfo) (h : HandleId) (im : Bool)
    (bs : List TouchBatch) :
    ∀ (w : World) (o : Bool), w.item.m_consumesInput = true → w.item.m_surface = some h →
      (w.surfaces h).live = true → (type w = MirType.InputMethodType → im = true) →
      sequenceState o w → admissible kb im o bs = true →
      ∃ w1 out o1, processTouchEvents kb w bs = some (w1, List.replicate bs.length true) ∧
        w1.trace = w.trace ++ out ∧ legalRun o (received h out) = some o1 := by
  induction bs with
  | nil =>
    intro w o _ _ _ _ _ _
    exact ⟨w, [], o, rfl, by simp, by simp [received, legalRun]⟩
  | cons b bs ih =>
    intro w o hc hs hl him hst hadm
    simp only [admissible, Bool.and_eq_true] at hadm
    obtain ⟨hwf, hrest⟩ := hadm
    have hgate : if b.eventType = TouchBegin then
        (!im || hasTouchInsideUbuntuKeyboard kb b.touchPoints) = true else o = true := by
      split
      · next hb =>
        rw [if_pos hb, Bool.and_eq_true] at hrest
        exact hrest.1
      · next hb =>
        rw [if_neg hb, Bool.and_eq_true] at hrest
        exact hrest.1
    have hnext : admissible kb im (decide (b.eventType ≠ TouchEnd)) bs = true := by
      by_cases hb : b.eventType = TouchBegin
      · rw [if_pos hb, Bool.and_eq_true] at hrest
        have : decide (b.eventType ≠ TouchEnd) = true := by
          rw [hb]
          decide
        rw [this]
        exact hrest.2
      · rw [if_neg hb, Bool.and_eq_true] at hrest
        exact hrest.2
    obtain ⟨w1, out1, p1, p2, p3, p4⟩ :=
      processTouchEvent_step kb w h b o im hc hs hl him hst hwf hgate
    have fr := processTouchEvent_frame kb w w1 b true p1
    have hc1 : w1.item.m_consumesInput = true := by rw [fr.1]; exact hc
    have hs1 : w1.item.m_surface = some h := by rw [fr.1]; exact hs
    have hl1 : (w1.surfaces h).live = true := by rw [fr.2]; exact hl
    have him1 : type w1 = MirType.InputMethodType → im = true := by
      rw [type_of_touchFrame fr]
      exact him
    obtain ⟨w2, out2, o2, q1, q2, q3⟩ := ih w1 _ hc1 hs1 hl1 him1 p4 hnext
    refine ⟨w2, out1 ++ out2, o2, ?_, by rw [q2, p2, List.append_assoc], ?_⟩
    · simp [processTouchEvents, p1, q1, List.replicate_succ]
    · rw [received_append, legalRun_append, p3]
      exact q3

theorem touchWorld_no_batch : touchWorld.item.m_lastTouchEvent = none := by
  decide

/-- C1 as stated fails: on an item that consumes input and shows a live surface, with no
batch recorded yet, an Update batch is forwarded as it is, so the first batch the surface
receives is not a Begin. -/
theorem delivered_batches_counterexample :
    touchWorld.item.m_consumesInput = true ∧ touchWorld.item.m_surface = some 1 ∧
      (touchWorld.surfaces 1).live = true ∧ touchWorld.item.m_lastTouchEvent = none ∧
      (processTouchEvents exampleKeyboard touchWorld [updatePt3]).map
        (fun r => (received 1 (effectsSince touchWorld r.1), r.2)) =
        some ([([pt3Moved], 2)], [true]) ∧
      typeOfStates 2 = TouchUpdate ∧
      legalRun false [([pt3Moved], 2)] = none := by
  refine ⟨by decide, by decide, by decide, by decide, by decide, by decide, by decide⟩

/-- C1 (amended): on an item that consumes input and shows a live surface, with no open
sequence recorded, for every stream of well-formed batches that is legal except that an End
may be missing before a Begin (and whose Begins pass the keyboard gate on an input-method
surface), every batch is accepted and the batches the surface receives, forwarded and
synthetic together, form a legal sequence: Begin, Updates, one End, no Begin while a sequence
is open, and no batch before the End without points. -/
theorem delivered_batches_legal (kb : UbuntuKeyboardInfo) (w : World) (h : HandleId)
    (bs : List TouchBatch)
    (hc : w.item.m_consumesInput = true) (hs : w.item.m_surface = some h)
    (hl : (w.surfaces h).live = true)
    (h0 : ∀ e, w.item.m_lastTouchEvent = some e → e.type = TouchEnd)
    (hadm : admissible kb (decide (type w = MirType.InputMethodType)) false bs = true) :
    ∃ w1, processTouchEvents kb w bs = some (w1, List.replicate bs.length true) ∧
      (legalRun false (received h (effectsSince w w1))).isSome = true := by
  obtain ⟨w1, out, o1, q1, q2, q3⟩ := processTouchEvents_grammar kb h
    (decide (type w = MirType.InputMethodType)) bs w false hc hs hl (by simp)
    (by simpa [sequenceState] using h0) hadm
  refine ⟨w1, q1, ?_⟩
  rw [effectsSince_append w w1 out q2, q3]
  rfl

/-- Witness for C1 (amended): Scenario C, a Begin arriving on an open sequence. -/
theorem delivered_batches_legal_witness :
    touchWorld.item.m_consumesInput = true ∧ touchWorld.item.m_surface = some 1 ∧
      (touchWorld.surfaces 1).live = true ∧
      (∀ e, touchWorld.item.m_lastTouchEvent = some e → e.type = TouchEnd) ∧
      admissible exampleKeyboard (decide (type touchWorld = MirType.InputMethodType)) false
        [beginPt1, updatePt1Pt2, beginPt3] = true ∧
      ∃ w1, processTouchEvents exampleKeyboard touchWorld [beginPt1, updatePt1Pt2, beginPt3] =
          some (w1, [true, true, true]) ∧
        (legalRun false (received 1 (effectsSince touchWorld w1))).isSome = true :=
  ⟨by decide, by decide, by decide, fun e he => absurd (touchWorld_no_batch ▸ he) (by simp), by decide,
    delivered_batches_legal exampleKeyboard touchWorld 1 [beginPt1, updatePt1Pt2, beginPt3]
      (by decide) (by decide) (by decide) (fun e he => absurd (touchWorld_no_batch ▸ he) (by simp)) (by decide)⟩

/-! ## The assertions of the repair -/

theorem needsRepair_asserts (w : World) (eventType : Int)
    (h : needsRepair w eventType = true) :
    assertLastRecorded w = true ∧ assertNotEnded w = true := by
  unfold needsRepair at h
  unfold assertLastRecorded assertNotEnded
  split at h
  · next last hlast =>
    simp only [Bool.and_eq_true, decide_eq_true_eq] at h
    simp [hlast, h.2]
  · exact absurd h (by simp)

theorem endCurrentTouchSequence_isSome_asserts (w : World) (ts : Nat)
    (h : (endCurrentTouchSequence w ts).isSome = true) :
    assertLastRecorded w = true ∧ assertNotEnded w = true ∧ assertHasTouchPoints w = true := by
  unfold endCurrentTouchSequence at h
  unfold assertLastRecorded assertNotEnded assertHasTouchPoints
  split at h
  · exact absurd h (by simp)
  · next last hlast =>
    split at h
    · exact absurd h (by simp)
    · next hne =>
      split at h
      · exact absurd h (by simp)
      · next hlen =>
        simp only [hlast, Option.isSome_some, ne_eq, hne, not_false_eq_true, decide_True,
          gt_iff_lt, decide_eq_true_eq, true_and]
        omega

/-- C11 fails on the code: a Begin batch without touch points is forwarded, accepted and
recorded; the next Begin then reaches `endCurrentTouchSequence` with the first two assertions
true and the third, that the recorded batch has a touch point, false, and the call does not
return. -/
theorem empty_begin_breaks_third_assertion :
    (processTouchEvents exampleKeyboard touchWorld [beginNoPoints]).map
        (fun r => (r.1.item, r.1.trace, r.2)) =
        some (noPointsWorld.item, noPointsWorld.trace, [true]) ∧
      needsRepair noPointsWorld beginPt3.eventType = true ∧
      assertLastRecorded noPointsWorld = true ∧
      assertNotEnded noPointsWorld = true ∧
      assertHasTouchPoints noPointsWorld = false ∧
      (endCurrentTouchSequence noPointsWorld beginPt3.timestamp).isSome = false ∧
      (processTouchEvent exampleKeyboard noPointsWorld beginPt3).isSome = false ∧
      (processTouchEvents exampleKeyboard touchWorld [beginNoPoints, beginPt3]).isSome
        = false := by
  refine ⟨by decide, by decide, by decide, by decide, by decide, by decide, by decide,
    by decide⟩

end qtmir
